import Mathlib

/-!
# Sprite and particle renderables (chapter 12 engine)

A shallow embedding of `sprite_renderable.js` and `particle_renderable.js`.

Numbers.  The JavaScript code computes on IEEE doubles.  A finite number is
kept as the exact rational it denotes, next to the three special values
`Infinity`, `-Infinity` and `NaN`, which division by a zero image dimension
produces.  The two signed zeros are identified (an image dimension is never
the negative zero).  Two arithmetics are given on these numbers.

* The operators `+ - * /` do not round.  They serve the statements that the
  specification makes over exact rational arithmetic and the statements in
  which no arithmetic result is inspected.
* The operations `add64`, `sub64`, `mul64`, `div64` round every finite result
  to the nearest double, a tie going to the even significand and an overflow
  to infinity, as the engine does.  The methods under `Binary64` are the same
  methods computed with them; the statements whose truth depends on rounding
  (the pixel round trip, the bounds of the collision rectangle) are about
  those.

Objects.  A method that assigns to `this` is a function from the object before
the call to the object after it.  The base class `TextureRenderable` and the
two registries (shader resources, texture info) are not part of these two
files; they appear as the record `Resources` and the base record
`TextureRenderable`.
-/

namespace Engine

/-! ## Numbers -/

/-- A JavaScript number: a finite value, kept as the exact rational it denotes,
or one of the three special values. -/
inductive JSNum where
  | fin (q : ℚ)
  | posInf
  | negInf
  | nan
  deriving DecidableEq

namespace JSNum

/-- The JavaScript test `Number.isFinite`. -/
def isFinite : JSNum → Bool
  | fin _ => true
  | _ => false

/-- Unary minus. -/
def neg : JSNum → JSNum
  | fin q => fin (-q)
  | posInf => negInf
  | negInf => posInf
  | nan => nan

/-- The JavaScript `+` on numbers, a finite sum left unrounded (`add64` rounds it). -/
def add : JSNum → JSNum → JSNum
  | fin a, fin b => fin (a + b)
  | nan, _ => nan
  | _, nan => nan
  | posInf, negInf => nan
  | negInf, posInf => nan
  | posInf, _ => posInf
  | negInf, _ => negInf
  | fin _, posInf => posInf
  | fin _, negInf => negInf

/-- The JavaScript `-` on numbers, a finite difference left unrounded (`sub64`
rounds it). -/
def sub (x y : JSNum) : JSNum := add x (neg y)

/-- An infinity times a finite number: `NaN` at zero, otherwise the infinity
with the product's sign (`pos` tells whether the infinity is the positive one). -/
def infTimes (pos : Bool) (b : ℚ) : JSNum :=
  if b = 0 then nan
  else if (0 < b) = (pos = true) then posInf
  else negInf

/-- The JavaScript `*` on numbers, a finite product left unrounded (`mul64`
rounds it). -/
def mul : JSNum → JSNum → JSNum
  | fin a, fin b => fin (a * b)
  | nan, _ => nan
  | _, nan => nan
  | posInf, fin b => infTimes true b
  | negInf, fin b => infTimes false b
  | fin a, posInf => infTimes true a
  | fin a, negInf => infTimes false a
  | posInf, posInf => posInf
  | posInf, negInf => negInf
  | negInf, posInf => negInf
  | negInf, negInf => posInf

/-- The JavaScript `/` on numbers, a finite quotient left unrounded (`div64`
rounds it).  A finite number over zero is `NaN` when the numerator is zero and
otherwise the infinity with the numerator's sign. -/
def div : JSNum → JSNum → JSNum
  | fin a, fin b =>
    if b = 0 then
      if a = 0 then nan else if 0 < a then posInf else negInf
    else fin (a / b)
  | nan, _ => nan
  | _, nan => nan
  | fin _, posInf => fin 0
  | fin _, negInf => fin 0
  | posInf, fin b => if 0 ≤ b then posInf else negInf
  | negInf, fin b => if 0 ≤ b then negInf else posInf
  | posInf, posInf => nan
  | posInf, negInf => nan
  | negInf, posInf => nan
  | negInf, negInf => nan

instance : Add JSNum := ⟨add⟩
instance : Sub JSNum := ⟨sub⟩
instance : Mul JSNum := ⟨mul⟩
instance : Div JSNum := ⟨div⟩
instance : Coe ℚ JSNum := ⟨fin⟩
instance (n : Nat) : OfNat JSNum n := ⟨fin n⟩

end JSNum

/-! ## External collaborators -/

/-- The record the texture registry keeps for a loaded image; the code reads
its fields `mWidth` and `mHeight`. -/
structure TextureInfo where
  mWidth : JSNum
  mHeight : JSNum
  deriving DecidableEq

/-- A shader-program handle. -/
structure Shader where
  id : Nat
  deriving DecidableEq

/-- A camera, handed through to the base draw. -/
structure Camera where
  id : Nat
  deriving DecidableEq

/-- Modelled from the spec: the shader registry (`getSpriteShader`,
`getParticleShader` return shared handles), the texture-info registry (image
dimensions for a texture handle) and the shader the base constructor leaves
selected.  The module `shader_resources.js` and the texture module are not
among the source files. -/
structure Resources where
  getSpriteShader : Shader
  getParticleShader : Shader
  getTextureShader : Shader
  textureInfo : String → TextureInfo

/-- Modelled from the spec: the state of the base class `TextureRenderable`
that the two subclasses read or write (`texture_renderable.js` is not among
the source files). -/
structure TextureRenderable where
  mTexture : String
  mTextureInfo : TextureInfo
  mShader : Shader
  deriving DecidableEq

namespace TextureRenderable

/-- Modelled from the spec: the base constructor `(textureHandle)` binds the
texture and looks its info up in the registry. -/
def new (res : Resources) (myTexture : String) : TextureRenderable :=
  { mTexture := myTexture
    mTextureInfo := res.textureInfo myTexture
    mShader := res.getTextureShader }

/-- Modelled from the spec: the base method `_setShader(shaderHandle)`. -/
def _setShader (self : TextureRenderable) (s : Shader) : TextureRenderable :=
  { self with mShader := s }

end TextureRenderable

/-! ## Effects of drawing -/

/-- The calls a draw makes on its collaborators. -/
inductive Effect where
  | setTextureCoordinate (shader : Shader) (texCoord : List JSNum)
  | baseDraw (self : TextureRenderable) (camera : Camera)
  deriving DecidableEq

/-- The shader method `setTextureCoordinate(uvArray)`, recorded in the log. -/
def Shader.setTextureCoordinate (sh : Shader) (texCoord : List JSNum)
    (log : List Effect) : List Effect :=
  log ++ [Effect.setTextureCoordinate sh texCoord]

/-- Modelled from the spec: the base method `draw(camera)`, recorded in the log. -/
def TextureRenderable.draw (self : TextureRenderable) (camera : Camera)
    (log : List Effect) : List Effect :=
  log ++ [Effect.baseDraw self camera]

/-! ## sprite_renderable.js -/

/-- The shape of the frozen constant table `eTexCoordArrayIndex`. -/
structure TexCoordArrayIndex where
  eLeft : Nat
  eRight : Nat
  eTop : Nat
  eBottom : Nat
  deriving DecidableEq

/-- The exported constant table `eTexCoordArrayIndex`. -/
def eTexCoordArrayIndex : TexCoordArrayIndex :=
  { eLeft := 2
    eRight := 0
    eTop := 1
    eBottom := 5 }

/-- The object state of a `SpriteRenderable`: the base state, the four bounds
and the four fields `_setTexInfo` derives. -/
structure SpriteRenderable extends TextureRenderable where
  mElmLeft : JSNum
  mElmRight : JSNum
  mElmTop : JSNum
  mElmBottom : JSNum
  mElmLeftIndex : JSNum
  mElmBottomIndex : JSNum
  mElmWidthPixels : JSNum
  mElmHeightPixels : JSNum
  deriving DecidableEq

namespace SpriteRenderable

/-- The method `_setTexInfo()`. -/
def _setTexInfo (self : SpriteRenderable) : SpriteRenderable :=
  let imageW := self.mTextureInfo.mWidth
  let imageH := self.mTextureInfo.mHeight
  { self with
    mElmLeftIndex := self.mElmLeft * imageW
    mElmBottomIndex := self.mElmBottom * imageH
    mElmWidthPixels := ((self.mElmRight - self.mElmLeft) * imageW) + 1
    mElmHeightPixels := ((self.mElmTop - self.mElmBottom) * imageH) + 1 }

/-- The constructor `SpriteRenderable(myTexture)`.  The four derived fields are
not assigned before `_setTexInfo` runs; until then they are `undefined`, which
reads as `NaN`. -/
def new (res : Resources) (myTexture : String) : SpriteRenderable :=
  let base := (TextureRenderable.new res myTexture)._setShader res.getSpriteShader
  _setTexInfo
    { toTextureRenderable := base
      mElmLeft := 0
      mElmRight := 1
      mElmTop := 1
      mElmBottom := 0
      mElmLeftIndex := JSNum.nan
      mElmBottomIndex := JSNum.nan
      mElmWidthPixels := JSNum.nan
      mElmHeightPixels := JSNum.nan }

/-- The method `setElementUVCoordinate(left, right, bottom, top)`. -/
def setElementUVCoordinate (self : SpriteRenderable)
    (left right bottom top : JSNum) : SpriteRenderable :=
  _setTexInfo
    { self with
      mElmLeft := left
      mElmRight := right
      mElmBottom := bottom
      mElmTop := top }

/-- The method `setElementPixelPositions(left, right, bottom, top)`. -/
def setElementPixelPositions (self : SpriteRenderable)
    (left right bottom top : JSNum) : SpriteRenderable :=
  let imageW := self.mTextureInfo.mWidth
  let imageH := self.mTextureInfo.mHeight
  _setTexInfo
    { self with
      mElmLeft := left / imageW
      mElmRight := right / imageW
      mElmBottom := bottom / imageH
      mElmTop := top / imageH }

/-- The method `getElementUVCoordinateArray()`. -/
def getElementUVCoordinateArray (self : SpriteRenderable) : List JSNum :=
  [ self.mElmRight, self.mElmTop,
    self.mElmLeft, self.mElmTop,
    self.mElmRight, self.mElmBottom,
    self.mElmLeft, self.mElmBottom ]

/-- The method `draw(camera)`: the calls it makes, appended to the log. -/
def draw (self : SpriteRenderable) (camera : Camera) (log : List Effect) : List Effect :=
  let log := self.mShader.setTextureCoordinate self.getElementUVCoordinateArray log
  self.toTextureRenderable.draw camera log

end SpriteRenderable

/-! ## particle_renderable.js -/

/-- The object state of a `ParticleRenderable`: the class declares no field of
its own. -/
structure ParticleRenderable extends TextureRenderable
  deriving DecidableEq

namespace ParticleRenderable

/-- The constructor `ParticleRenderable(myTexture)`. -/
def new (res : Resources) (myTexture : String) : ParticleRenderable :=
  { toTextureRenderable :=
      (TextureRenderable.new res myTexture)._setShader res.getParticleShader }

end ParticleRenderable

/-! ## Method calls on a sprite -/

/-- A call of one of the three public methods of a sprite that do not draw. -/
inductive Call where
  | setElementUVCoordinate (left right bottom top : JSNum)
  | setElementPixelPositions (left right bottom top : JSNum)
  | getElementUVCoordinateArray
  deriving DecidableEq

namespace SpriteRenderable

/-- One call on the object `self`: the value the call returns (`none` for the
two setters, which return nothing) and the object after the call.  The body of
`getElementUVCoordinateArray` has no assignment, so the object is handed back
as it is. -/
def invoke (self : SpriteRenderable) : Call → Option (List JSNum) × SpriteRenderable
  | Call.setElementUVCoordinate left right bottom top =>
    (none, self.setElementUVCoordinate left right bottom top)
  | Call.setElementPixelPositions left right bottom top =>
    (none, self.setElementPixelPositions left right bottom top)
  | Call.getElementUVCoordinateArray =>
    (some self.getElementUVCoordinateArray, self)

/-- How a call completes: normally (`Except.ok`) or by throwing
(`Except.error`).  The three bodies are straight-line field reads, field writes
and number arithmetic, there is no `throw` and no guard in them, and JavaScript
number division does not throw; so every call completes normally. -/
def call (self : SpriteRenderable) (c : Call) :
    Except String (Option (List JSNum) × SpriteRenderable) :=
  Except.ok (self.invoke c)

/-- The object after a sequence of calls, made in order. -/
def run (self : SpriteRenderable) (calls : List Call) : SpriteRenderable :=
  calls.foldl (fun s c => (s.invoke c).2) self

end SpriteRenderable

/-- The four derived fields agree with the bounds and the image dimensions, by
the formulas of `_setTexInfo`. -/
def DerivedFresh (s : SpriteRenderable) : Prop :=
  s.mElmLeftIndex = s.mElmLeft * s.mTextureInfo.mWidth ∧
  s.mElmBottomIndex = s.mElmBottom * s.mTextureInfo.mHeight ∧
  s.mElmWidthPixels = ((s.mElmRight - s.mElmLeft) * s.mTextureInfo.mWidth) + 1 ∧
  s.mElmHeightPixels = ((s.mElmTop - s.mElmBottom) * s.mTextureInfo.mHeight) + 1

instance (s : SpriteRenderable) : Decidable (DerivedFresh s) := by
  unfold DerivedFresh
  infer_instance

/-! ## Concrete inputs -/

/-- A registry whose only image is `w` by `h` pixels, with three different shaders. -/
def sampleResources (w h : JSNum) : Resources :=
  { getSpriteShader := { id := 1 }
    getParticleShader := { id := 2 }
    getTextureShader := { id := 0 }
    textureInfo := fun _ => { mWidth := w, mHeight := h } }

/-- A fresh sprite on a 100 by 50 image. -/
def sampleSprite : SpriteRenderable :=
  SpriteRenderable.new (sampleResources 100 50) "assets/minion_sprite.png"

/-- A fresh sprite on an image whose dimensions are both zero. -/
def emptyImageSprite : SpriteRenderable :=
  SpriteRenderable.new (sampleResources 0 0) "assets/empty.png"

/-! ## Arithmetic on doubles -/

namespace JSNum

/-- Round to the nearest integer, a tie going to the even one. -/
def roundHalfEven (x : ℚ) : ℤ :=
  if 2 * (x - ⌊x⌋) < 1 then ⌊x⌋
  else if 1 < 2 * (x - ⌊x⌋) then ⌊x⌋ + 1
  else if ⌊x⌋ % 2 = 0 then ⌊x⌋
  else ⌊x⌋ + 1

/-- The exponent of the last binary place a double keeps for a number of the
size of `q`: 52 places below the leading one, and never below the exponent
-1074 of the subnormal numbers. -/
def quantumExp (q : ℚ) : ℤ :=
  max (Int.log 2 |q|) (-1022) - 52

/-- The multiple of the quantum nearest to `q`, a tie going to the even
multiple. -/
def round64Val (q : ℚ) : ℚ :=
  (roundHalfEven (q / 2 ^ quantumExp q) : ℚ) * 2 ^ quantumExp q

/-- The double an exact result `q` is rounded to: the nearest one, or the
infinity of the sign of `q` when the nearest multiple reaches 2^1024. -/
def round64 (q : ℚ) : JSNum :=
  if 2 ^ 1024 ≤ |round64Val q| then
    if 0 < q then posInf else negInf
  else fin (round64Val q)

/-- The JavaScript `+` on doubles. -/
def add64 : JSNum → JSNum → JSNum
  | fin a, fin b => round64 (a + b)
  | x, y => add x y

/-- The JavaScript `-` on doubles. -/
def sub64 : JSNum → JSNum → JSNum
  | fin a, fin b => round64 (a - b)
  | x, y => sub x y

/-- The JavaScript `*` on doubles. -/
def mul64 : JSNum → JSNum → JSNum
  | fin a, fin b => round64 (a * b)
  | x, y => mul x y

/-- The JavaScript `/` on doubles. -/
def div64 : JSNum → JSNum → JSNum
  | fin a, fin b => if b = 0 then div (fin a) (fin b) else round64 (a / b)
  | x, y => div x y

end JSNum

/-! ## sprite_renderable.js on doubles -/

namespace Binary64

/-- The method `_setTexInfo()`, computed on doubles. -/
def _setTexInfo (self : SpriteRenderable) : SpriteRenderable :=
  let imageW := self.mTextureInfo.mWidth
  let imageH := self.mTextureInfo.mHeight
  { self with
    mElmLeftIndex := JSNum.mul64 self.mElmLeft imageW
    mElmBottomIndex := JSNum.mul64 self.mElmBottom imageH
    mElmWidthPixels :=
      JSNum.add64 (JSNum.mul64 (JSNum.sub64 self.mElmRight self.mElmLeft) imageW) (JSNum.fin 1)
    mElmHeightPixels :=
      JSNum.add64 (JSNum.mul64 (JSNum.sub64 self.mElmTop self.mElmBottom) imageH) (JSNum.fin 1) }

/-- The constructor `SpriteRenderable(myTexture)`, computed on doubles. -/
def new (res : Resources) (myTexture : String) : SpriteRenderable :=
  let base := (TextureRenderable.new res myTexture)._setShader res.getSpriteShader
  _setTexInfo
    { toTextureRenderable := base
      mElmLeft := JSNum.fin 0
      mElmRight := JSNum.fin 1
      mElmTop := JSNum.fin 1
      mElmBottom := JSNum.fin 0
      mElmLeftIndex := JSNum.nan
      mElmBottomIndex := JSNum.nan
      mElmWidthPixels := JSNum.nan
      mElmHeightPixels := JSNum.nan }

/-- The method `setElementUVCoordinate(left, right, bottom, top)`, computed on
doubles. -/
def setElementUVCoordinate (self : SpriteRenderable)
    (left right bottom top : JSNum) : SpriteRenderable :=
  _setTexInfo
    { self with
      mElmLeft := left
      mElmRight := right
      mElmBottom := bottom
      mElmTop := top }

/-- The method `setElementPixelPositions(left, right, bottom, top)`, computed
on doubles. -/
def setElementPixelPositions (self : SpriteRenderable)
    (left right bottom top : JSNum) : SpriteRenderable :=
  let imageW := self.mTextureInfo.mWidth
  let imageH := self.mTextureInfo.mHeight
  _setTexInfo
    { self with
      mElmLeft := JSNum.div64 left imageW
      mElmRight := JSNum.div64 right imageW
      mElmBottom := JSNum.div64 bottom imageH
      mElmTop := JSNum.div64 top imageH }

end Binary64

/-- A fresh sprite, computed on doubles, on a square image of `n` by `n` pixels. -/
def squareSprite (n : ℕ) : SpriteRenderable :=
  Binary64.new (sampleResources (JSNum.fin n) (JSNum.fin n)) "assets/square.png"

/-! ## Arithmetic on finite numbers -/

namespace JSNum

theorem fin_add_fin (a b : ℚ) : fin a + fin b = fin (a + b) := rfl

theorem fin_sub_fin (a b : ℚ) : fin a - fin b = fin (a - b) := by
  show add (fin a) (neg (fin b)) = fin (a - b)
  simp [add, neg, sub_eq_add_neg]

theorem fin_mul_fin (a b : ℚ) : fin a * fin b = fin (a * b) := rfl

theorem fin_div_fin (a b : ℚ) (h : b ≠ 0) : fin a / fin b = fin (a / b) := by
  show div (fin a) (fin b) = fin (a / b)
  simp [div, h]

theorem fin_div_zero (a : ℚ) : (fin a / fin 0).isFinite = false := by
  show (div (fin a) (fin 0)).isFinite = false
  unfold div
  by_cases h0 : a = 0
  · simp [h0, isFinite]
  · by_cases hp : 0 < a <;> simp [h0, hp, isFinite]

theorem div_zero_not_finite (x : JSNum) : (x / fin 0).isFinite = false := by
  cases x with
  | fin a => exact fin_div_zero a
  | posInf => show (div posInf (fin 0)).isFinite = false; simp [div, isFinite]
  | negInf => show (div negInf (fin 0)).isFinite = false; simp [div, isFinite]
  | nan => rfl

theorem ofNat_eq_fin (n : Nat) : (OfNat.ofNat n : JSNum) = fin (n : ℚ) := rfl

end JSNum

/-! ## Properties of the methods -/

namespace SpriteRenderable

theorem _setTexInfo_fresh (s : SpriteRenderable) : DerivedFresh (_setTexInfo s) :=
  ⟨rfl, rfl, rfl, rfl⟩

theorem _setTexInfo_base (s : SpriteRenderable) :
    (_setTexInfo s).toTextureRenderable = s.toTextureRenderable := rfl

theorem invoke_fresh (s : SpriteRenderable) (c : Call) (h : DerivedFresh s) :
    DerivedFresh (s.invoke c).2 := by
  cases c with
  | setElementUVCoordinate l r b t => exact _setTexInfo_fresh _
  | setElementPixelPositions l r b t => exact _setTexInfo_fresh _
  | getElementUVCoordinateArray => exact h

theorem invoke_base (s : SpriteRenderable) (c : Call) :
    (s.invoke c).2.toTextureRenderable = s.toTextureRenderable := by
  cases c <;> rfl

theorem run_fresh (calls : List Call) (s : SpriteRenderable) (h : DerivedFresh s) :
    DerivedFresh (s.run calls) := by
  induction calls generalizing s with
  | nil => exact h
  | cons c cs ih => exact ih _ (invoke_fresh s c h)

theorem run_base (calls : List Call) (s : SpriteRenderable) :
    (s.run calls).toTextureRenderable = s.toTextureRenderable := by
  induction calls generalizing s with
  | nil => rfl
  | cons c cs ih => exact (ih _).trans (invoke_base s c)

end SpriteRenderable

/-! ## The claims -/

/-- C1: for left, right, bottom, top in [0,1] with left ≤ right and
bottom ≤ top, and any sprite, `setElementUVCoordinate(left, right, bottom, top)`
followed by `getElementUVCoordinateArray()` returns exactly
`[right, top, left, top, right, bottom, left, bottom]`. -/
theorem uv_array_after_setElementUVCoordinate (self : SpriteRenderable)
    (left right bottom top : ℚ)
    (_hl : 0 ≤ left) (_hlr : left ≤ right) (_hr : right ≤ 1)
    (_hb : 0 ≤ bottom) (_hbt : bottom ≤ top) (_ht : top ≤ 1) :
    (self.setElementUVCoordinate (JSNum.fin left) (JSNum.fin right)
        (JSNum.fin bottom) (JSNum.fin top)).getElementUVCoordinateArray
      = [JSNum.fin right, JSNum.fin top, JSNum.fin left, JSNum.fin top,
         JSNum.fin right, JSNum.fin bottom, JSNum.fin left, JSNum.fin bottom] :=
  rfl

/-- Witness of C1 at the region (1/4, 3/4, 1/8, 1/2) of the sample sprite. -/
theorem uv_array_after_setElementUVCoordinate_witness :
    ((0 : ℚ) ≤ 1/4 ∧ (1/4 : ℚ) ≤ 3/4 ∧ (3/4 : ℚ) ≤ 1 ∧
      (0 : ℚ) ≤ 1/8 ∧ (1/8 : ℚ) ≤ 1/2 ∧ (1/2 : ℚ) ≤ 1) ∧
    (sampleSprite.setElementUVCoordinate (JSNum.fin (1/4)) (JSNum.fin (3/4))
        (JSNum.fin (1/8)) (JSNum.fin (1/2))).getElementUVCoordinateArray
      = [JSNum.fin (3/4), JSNum.fin (1/2), JSNum.fin (1/4), JSNum.fin (1/2),
         JSNum.fin (3/4), JSNum.fin (1/8), JSNum.fin (1/4), JSNum.fin (1/8)] :=
  ⟨by norm_num,
   uv_array_after_setElementUVCoordinate sampleSprite (1/4) (3/4) (1/8) (1/2)
    (by norm_num) (by norm_num) (by norm_num) (by norm_num) (by norm_num) (by norm_num)⟩

/-- C2: on a texture of width W ≠ 0 and height H ≠ 0,
`setElementPixelPositions(l, r, b, t)` stores exactly the bounds
left = l/W, right = r/W, bottom = b/H, top = t/H. -/
theorem setElementPixelPositions_bounds (self : SpriteRenderable)
    (W H l r b t : ℚ) (hW : W ≠ 0) (hH : H ≠ 0)
    (hinfo : self.mTextureInfo = { mWidth := JSNum.fin W, mHeight := JSNum.fin H }) :
    (self.setElementPixelPositions (JSNum.fin l) (JSNum.fin r)
        (JSNum.fin b) (JSNum.fin t)).mElmLeft = JSNum.fin (l / W) ∧
    (self.setElementPixelPositions (JSNum.fin l) (JSNum.fin r)
        (JSNum.fin b) (JSNum.fin t)).mElmRight = JSNum.fin (r / W) ∧
    (self.setElementPixelPositions (JSNum.fin l) (JSNum.fin r)
        (JSNum.fin b) (JSNum.fin t)).mElmBottom = JSNum.fin (b / H) ∧
    (self.setElementPixelPositions (JSNum.fin l) (JSNum.fin r)
        (JSNum.fin b) (JSNum.fin t)).mElmTop = JSNum.fin (t / H) := by
  simp only [SpriteRenderable.setElementPixelPositions, SpriteRenderable._setTexInfo, hinfo]
  exact ⟨JSNum.fin_div_fin l W hW, JSNum.fin_div_fin r W hW,
    JSNum.fin_div_fin b H hH, JSNum.fin_div_fin t H hH⟩

/-- Witness of C2 on the 100 by 50 sample image. -/
theorem setElementPixelPositions_bounds_witness :
    ((100 : ℚ) ≠ 0 ∧ (50 : ℚ) ≠ 0 ∧
      sampleSprite.mTextureInfo = { mWidth := JSNum.fin 100, mHeight := JSNum.fin 50 }) ∧
    ((sampleSprite.setElementPixelPositions (JSNum.fin 10) (JSNum.fin 60)
        (JSNum.fin 5) (JSNum.fin 45)).mElmLeft = JSNum.fin (10 / 100) ∧
    (sampleSprite.setElementPixelPositions (JSNum.fin 10) (JSNum.fin 60)
        (JSNum.fin 5) (JSNum.fin 45)).mElmRight = JSNum.fin (60 / 100) ∧
    (sampleSprite.setElementPixelPositions (JSNum.fin 10) (JSNum.fin 60)
        (JSNum.fin 5) (JSNum.fin 45)).mElmBottom = JSNum.fin (5 / 50) ∧
    (sampleSprite.setElementPixelPositions (JSNum.fin 10) (JSNum.fin 60)
        (JSNum.fin 5) (JSNum.fin 45)).mElmTop = JSNum.fin (45 / 50)) :=
  ⟨⟨by norm_num, by norm_num, rfl⟩,
   setElementPixelPositions_bounds sampleSprite 100 50 10 60 5 45
    (by norm_num) (by norm_num) rfl⟩

/-- C3: in every state reached from the constructor by a sequence of calls of
the public methods, the image dimensions are still those the registry gave for
the texture and the derived fields are not stale:
mElmLeftIndex = mElmLeft·W, mElmBottomIndex = mElmBottom·H,
mElmWidthPixels = (mElmRight − mElmLeft)·W + 1 and
mElmHeightPixels = (mElmTop − mElmBottom)·H + 1. -/
theorem derived_fields_never_stale (res : Resources) (myTexture : String)
    (calls : List Call) :
    ((SpriteRenderable.new res myTexture).run calls).mTextureInfo
        = res.textureInfo myTexture ∧
    ((SpriteRenderable.new res myTexture).run calls).mElmLeftIndex
        = ((SpriteRenderable.new res myTexture).run calls).mElmLeft
            * (res.textureInfo myTexture).mWidth ∧
    ((SpriteRenderable.new res myTexture).run calls).mElmBottomIndex
        = ((SpriteRenderable.new res myTexture).run calls).mElmBottom
            * (res.textureInfo myTexture).mHeight ∧
    ((SpriteRenderable.new res myTexture).run calls).mElmWidthPixels
        = ((((SpriteRenderable.new res myTexture).run calls).mElmRight
            - ((SpriteRenderable.new res myTexture).run calls).mElmLeft)
            * (res.textureInfo myTexture).mWidth) + 1 ∧
    ((SpriteRenderable.new res myTexture).run calls).mElmHeightPixels
        = ((((SpriteRenderable.new res myTexture).run calls).mElmTop
            - ((SpriteRenderable.new res myTexture).run calls).mElmBottom)
            * (res.textureInfo myTexture).mHeight) + 1 := by
  have hbase := SpriteRenderable.run_base calls (SpriteRenderable.new res myTexture)
  have hinfo : ((SpriteRenderable.new res myTexture).run calls).mTextureInfo
      = res.textureInfo myTexture := by
    have := congrArg TextureRenderable.mTextureInfo hbase
    exact this
  have hfresh := SpriteRenderable.run_fresh calls (SpriteRenderable.new res myTexture)
    (SpriteRenderable._setTexInfo_fresh _)
  unfold DerivedFresh at hfresh
  rw [hinfo] at hfresh
  exact ⟨hinfo, hfresh⟩

/-- C4, as stated, fails on an image whose dimensions are zero: the call
`setElementPixelPositions(10, 60, 5, 45)` completes normally, the four bounds
it stores are `Infinity`, the derived fields are `NaN`, and the object is not
the one before the call. -/
theorem setElementPixelPositions_zero_image_no_error :
    emptyImageSprite.mTextureInfo = { mWidth := JSNum.fin 0, mHeight := JSNum.fin 0 } ∧
    emptyImageSprite.call (Call.setElementPixelPositions 10 60 5 45)
      = Except.ok (none, emptyImageSprite.setElementPixelPositions 10 60 5 45) ∧
    (emptyImageSprite.setElementPixelPositions 10 60 5 45).mElmLeft = JSNum.posInf ∧
    (emptyImageSprite.setElementPixelPositions 10 60 5 45).mElmRight = JSNum.posInf ∧
    (emptyImageSprite.setElementPixelPositions 10 60 5 45).mElmBottom = JSNum.posInf ∧
    (emptyImageSprite.setElementPixelPositions 10 60 5 45).mElmTop = JSNum.posInf ∧
    (emptyImageSprite.setElementPixelPositions 10 60 5 45).mElmLeftIndex = JSNum.nan ∧
    (emptyImageSprite.setElementPixelPositions 10 60 5 45).mElmWidthPixels = JSNum.nan ∧
    emptyImageSprite.setElementPixelPositions 10 60 5 45 ≠ emptyImageSprite := by
  have hdiv : ∀ n : ℕ, n ≠ 0 → JSNum.div (JSNum.fin n) (JSNum.fin ((0 : ℕ) : ℚ)) = JSNum.posInf := by
    intro n hn
    have h1 : (n : ℚ) ≠ 0 := by exact_mod_cast hn
    have h2 : (0 : ℚ) < n := by exact_mod_cast Nat.pos_of_ne_zero hn
    simp [JSNum.div, h1, h2]
  have hl : (emptyImageSprite.setElementPixelPositions 10 60 5 45).mElmLeft = JSNum.posInf :=
    hdiv 10 (by decide)
  have hr : (emptyImageSprite.setElementPixelPositions 10 60 5 45).mElmRight = JSNum.posInf :=
    hdiv 60 (by decide)
  have hb : (emptyImageSprite.setElementPixelPositions 10 60 5 45).mElmBottom = JSNum.posInf :=
    hdiv 5 (by decide)
  have ht : (emptyImageSprite.setElementPixelPositions 10 60 5 45).mElmTop = JSNum.posInf :=
    hdiv 45 (by decide)
  have hli : (emptyImageSprite.setElementPixelPositions 10 60 5 45).mElmLeftIndex
      = JSNum.nan := by
    show JSNum.mul (emptyImageSprite.setElementPixelPositions 10 60 5 45).mElmLeft
      (JSNum.fin ((0 : ℕ) : ℚ)) = JSNum.nan
    rw [hl]
    simp [JSNum.mul, JSNum.infTimes]
  have hw : (emptyImageSprite.setElementPixelPositions 10 60 5 45).mElmWidthPixels
      = JSNum.nan := by
    show JSNum.add (JSNum.mul
      (JSNum.sub (emptyImageSprite.setElementPixelPositions 10 60 5 45).mElmRight
        (emptyImageSprite.setElementPixelPositions 10 60 5 45).mElmLeft)
      (JSNum.fin ((0 : ℕ) : ℚ))) (JSNum.fin ((1 : ℕ) : ℚ)) = JSNum.nan
    rw [hl, hr]
    rfl
  refine ⟨rfl, rfl, hl, hr, hb, ht, hli, hw, ?_⟩
  intro h
  have h3 := congrArg SpriteRenderable.mElmLeft h
  rw [hl] at h3
  exact JSNum.noConfusion h3

/-- C4, amended: `setElementPixelPositions` reports no error.  For every
l, r, b, t and all image dimensions, zero included, the call completes
normally, leaves the texture info alone and stores left = l/W, right = r/W,
bottom = b/H, top = t/H as JavaScript division gives them; when W = 0 the
stored left and right are not finite, and when H = 0 the stored bottom and top
are not finite. -/
theorem setElementPixelPositions_never_fails (self : SpriteRenderable)
    (l r b t : JSNum) :
    self.call (Call.setElementPixelPositions l r b t)
      = Except.ok (none, self.setElementPixelPositions l r b t) ∧
    (self.setElementPixelPositions l r b t).mTextureInfo = self.mTextureInfo ∧
    (self.setElementPixelPositions l r b t).mElmLeft = l / self.mTextureInfo.mWidth ∧
    (self.setElementPixelPositions l r b t).mElmRight = r / self.mTextureInfo.mWidth ∧
    (self.setElementPixelPositions l r b t).mElmBottom = b / self.mTextureInfo.mHeight ∧
    (self.setElementPixelPositions l r b t).mElmTop = t / self.mTextureInfo.mHeight ∧
    (self.mTextureInfo.mWidth = JSNum.fin 0 →
      (self.setElementPixelPositions l r b t).mElmLeft.isFinite = false ∧
      (self.setElementPixelPositions l r b t).mElmRight.isFinite = false) ∧
    (self.mTextureInfo.mHeight = JSNum.fin 0 →
      (self.setElementPixelPositions l r b t).mElmBottom.isFinite = false ∧
      (self.setElementPixelPositions l r b t).mElmTop.isFinite = false) := by
  refine ⟨rfl, rfl, rfl, rfl, rfl, rfl, ?_, ?_⟩
  · intro hW
    show (l / self.mTextureInfo.mWidth).isFinite = false ∧
      (r / self.mTextureInfo.mWidth).isFinite = false
    rw [hW]
    exact ⟨JSNum.div_zero_not_finite l, JSNum.div_zero_not_finite r⟩
  · intro hH
    show (b / self.mTextureInfo.mHeight).isFinite = false ∧
      (t / self.mTextureInfo.mHeight).isFinite = false
    rw [hH]
    exact ⟨JSNum.div_zero_not_finite b, JSNum.div_zero_not_finite t⟩

/-- C5: one call of `draw(camera)` adds to the log exactly the two calls
`shader.setTextureCoordinate(a)` and then the base draw with the same camera,
where the shader is the sprite's and `a` is the array of its current bounds,
`[right, top, left, top, right, bottom, left, bottom]`. -/
theorem draw_trace (self : SpriteRenderable) (camera : Camera) (log : List Effect) :
    self.draw camera log
      = log ++ [Effect.setTextureCoordinate self.mShader self.getElementUVCoordinateArray,
                Effect.baseDraw self.toTextureRenderable camera] ∧
    self.draw camera []
      = [Effect.setTextureCoordinate self.mShader
          [self.mElmRight, self.mElmTop, self.mElmLeft, self.mElmTop,
           self.mElmRight, self.mElmBottom, self.mElmLeft, self.mElmBottom],
         Effect.baseDraw self.toTextureRenderable camera] := by
  constructor
  · simp [SpriteRenderable.draw, Shader.setTextureCoordinate, TextureRenderable.draw]
  · rfl

/-- C6: on a texture of width 100 and height 50,
`setElementPixelPositions(10, 60, 5, 45)` leaves the bounds
(left, right, bottom, top) = (1/10, 6/10, 1/10, 9/10), mElmWidthPixels = 51
and mElmHeightPixels = 41. -/
theorem setElementPixelPositions_scenario (self : SpriteRenderable)
    (hinfo : self.mTextureInfo = { mWidth := JSNum.fin 100, mHeight := JSNum.fin 50 }) :
    (self.setElementPixelPositions (JSNum.fin 10) (JSNum.fin 60)
        (JSNum.fin 5) (JSNum.fin 45)).mElmLeft = JSNum.fin (1 / 10) ∧
    (self.setElementPixelPositions (JSNum.fin 10) (JSNum.fin 60)
        (JSNum.fin 5) (JSNum.fin 45)).mElmRight = JSNum.fin (6 / 10) ∧
    (self.setElementPixelPositions (JSNum.fin 10) (JSNum.fin 60)
        (JSNum.fin 5) (JSNum.fin 45)).mElmBottom = JSNum.fin (1 / 10) ∧
    (self.setElementPixelPositions (JSNum.fin 10) (JSNum.fin 60)
        (JSNum.fin 5) (JSNum.fin 45)).mElmTop = JSNum.fin (9 / 10) ∧
    (self.setElementPixelPositions (JSNum.fin 10) (JSNum.fin 60)
        (JSNum.fin 5) (JSNum.fin 45)).mElmWidthPixels = JSNum.fin 51 ∧
    (self.setElementPixelPositions (JSNum.fin 10) (JSNum.fin 60)
        (JSNum.fin 5) (JSNum.fin 45)).mElmHeightPixels = JSNum.fin 41 := by
  have hW : (100 : ℚ) ≠ 0 := by norm_num
  have hH : (50 : ℚ) ≠ 0 := by norm_num
  have one : (1 : JSNum) = JSNum.fin 1 := by
    rw [JSNum.ofNat_eq_fin]
    norm_num
  simp only [SpriteRenderable.setElementPixelPositions, SpriteRenderable._setTexInfo, hinfo,
    one, JSNum.fin_div_fin _ _ hW, JSNum.fin_div_fin _ _ hH, JSNum.fin_sub_fin,
    JSNum.fin_mul_fin, JSNum.fin_add_fin]
  norm_num

/-- Witness of C6 on the sample sprite, whose image is 100 by 50. -/
theorem setElementPixelPositions_scenario_witness :
    sampleSprite.mTextureInfo = { mWidth := JSNum.fin 100, mHeight := JSNum.fin 50 } ∧
    (sampleSprite.setElementPixelPositions (JSNum.fin 10) (JSNum.fin 60)
        (JSNum.fin 5) (JSNum.fin 45)).mElmWidthPixels = JSNum.fin 51 ∧
    (sampleSprite.setElementPixelPositions (JSNum.fin 10) (JSNum.fin 60)
        (JSNum.fin 5) (JSNum.fin 45)).mElmHeightPixels = JSNum.fin 41 :=
  ⟨rfl, (setElementPixelPositions_scenario sampleSprite rfl).2.2.2.2⟩

/-- C7: for every texture handle, a freshly constructed sprite covers the full
image: its bounds (left, right, bottom, top) are (0, 1, 0, 1) and
`getElementUVCoordinateArray()` returns `[1, 1, 0, 1, 1, 0, 0, 0]`. -/
theorem new_covers_full_image (res : Resources) (myTexture : String) :
    (SpriteRenderable.new res myTexture).mElmLeft = JSNum.fin 0 ∧
    (SpriteRenderable.new res myTexture).mElmRight = JSNum.fin 1 ∧
    (SpriteRenderable.new res myTexture).mElmBottom = JSNum.fin 0 ∧
    (SpriteRenderable.new res myTexture).mElmTop = JSNum.fin 1 ∧
    (SpriteRenderable.new res myTexture).getElementUVCoordinateArray
      = [JSNum.fin 1, JSNum.fin 1, JSNum.fin 0, JSNum.fin 1,
         JSNum.fin 1, JSNum.fin 0, JSNum.fin 0, JSNum.fin 0] := by
  have zero : (0 : JSNum) = JSNum.fin 0 := by
    rw [JSNum.ofNat_eq_fin]
    norm_num
  have one : (1 : JSNum) = JSNum.fin 1 := by
    rw [JSNum.ofNat_eq_fin]
    norm_num
  simp [SpriteRenderable.new, SpriteRenderable._setTexInfo,
    SpriteRenderable.getElementUVCoordinateArray, zero, one]

/-- C8: for every texture handle the particle constructor selects the shader
`getParticleShader()` and the sprite constructor the shader `getSpriteShader()`;
when the two handles of the registry differ, the particle and the sprite built
from one texture handle hold different shaders; and the particle is the base
object of that texture with the shader replaced, nothing more. -/
theorem constructors_select_shaders (res : Resources) (myTexture : String) :
    (ParticleRenderable.new res myTexture).mShader = res.getParticleShader ∧
    (SpriteRenderable.new res myTexture).mShader = res.getSpriteShader ∧
    (res.getParticleShader ≠ res.getSpriteShader →
      (ParticleRenderable.new res myTexture).mShader
        ≠ (SpriteRenderable.new res myTexture).mShader) ∧
    ParticleRenderable.new res myTexture
      = { mTexture := myTexture
          mTextureInfo := res.textureInfo myTexture
          mShader := res.getParticleShader } ∧
    (ParticleRenderable.new res myTexture).mTexture
      = (SpriteRenderable.new res myTexture).mTexture ∧
    (ParticleRenderable.new res myTexture).mTextureInfo
      = (SpriteRenderable.new res myTexture).mTextureInfo :=
  ⟨rfl, rfl, fun h => h, rfl, rfl, rfl⟩

/-- C9: the two setters and `getElementUVCoordinateArray` never change the
texture info or the selected shader.  A setter leaves every field of the base
object as it was, so it changes at most the four bounds and the four derived
fields; `getElementUVCoordinateArray` returns the object as it was. -/
theorem methods_frame (self : SpriteRenderable) (left right bottom top : JSNum) :
    ((self.setElementUVCoordinate left right bottom top).mTextureInfo = self.mTextureInfo ∧
     (self.setElementUVCoordinate left right bottom top).mShader = self.mShader ∧
     (self.setElementUVCoordinate left right bottom top).toTextureRenderable
       = self.toTextureRenderable) ∧
    ((self.setElementPixelPositions left right bottom top).mTextureInfo = self.mTextureInfo ∧
     (self.setElementPixelPositions left right bottom top).mShader = self.mShader ∧
     (self.setElementPixelPositions left right bottom top).toTextureRenderable
       = self.toTextureRenderable) ∧
    (self.invoke Call.getElementUVCoordinateArray).2 = self ∧
    (∀ c : Call, (self.invoke c).2.mTextureInfo = self.mTextureInfo ∧
      (self.invoke c).2.mShader = self.mShader) := by
  refine ⟨⟨rfl, rfl, rfl⟩, ⟨rfl, rfl, rfl⟩, rfl, ?_⟩
  intro c
  cases c <;> exact ⟨rfl, rfl⟩

/-- C10: `setElementUVCoordinate` has no error condition and validates nothing:
for all left, right, bottom, top, possibly outside [0,1], inverted or not
finite, the call completes normally and the stored bounds are exactly
(left, right, bottom, top). -/
theorem setElementUVCoordinate_total (self : SpriteRenderable)
    (left right bottom top : JSNum) :
    self.call (Call.setElementUVCoordinate left right bottom top)
      = Except.ok (none, self.setElementUVCoordinate left right bottom top) ∧
    (self.setElementUVCoordinate left right bottom top).mElmLeft = left ∧
    (self.setElementUVCoordinate left right bottom top).mElmRight = right ∧
    (self.setElementUVCoordinate left right bottom top).mElmBottom = bottom ∧
    (self.setElementUVCoordinate left right bottom top).mElmTop = top :=
  ⟨rfl, rfl, rfl, rfl, rfl⟩

/-! ## The constant table and the linear scale -/

/-- C11: the constant table `eTexCoordArrayIndex` (eLeft = 2, eRight = 0,
eTop = 1, eBottom = 5) indexes the array `getElementUVCoordinateArray()`
produces: for every sprite state the entries at eLeft, eRight, eTop and eBottom
are mElmLeft, mElmRight, mElmTop and mElmBottom. -/
theorem eTexCoordArrayIndex_indexes_uv_array (self : SpriteRenderable) :
    (eTexCoordArrayIndex.eLeft = 2 ∧ eTexCoordArrayIndex.eRight = 0 ∧
      eTexCoordArrayIndex.eTop = 1 ∧ eTexCoordArrayIndex.eBottom = 5) ∧
    self.getElementUVCoordinateArray[eTexCoordArrayIndex.eLeft]? = some self.mElmLeft ∧
    self.getElementUVCoordinateArray[eTexCoordArrayIndex.eRight]? = some self.mElmRight ∧
    self.getElementUVCoordinateArray[eTexCoordArrayIndex.eTop]? = some self.mElmTop ∧
    self.getElementUVCoordinateArray[eTexCoordArrayIndex.eBottom]? = some self.mElmBottom :=
  ⟨⟨rfl, rfl, rfl, rfl⟩, rfl, rfl, rfl, rfl⟩

/-- C12: on a texture of width W ≠ 0 and height H ≠ 0, the whole state after
`setElementPixelPositions(l, r, b, t)` is the whole state after
`setElementUVCoordinate(l/W, r/W, b/H, t/H)`, bounds and derived fields alike. -/
theorem setElementPixelPositions_eq_setElementUVCoordinate (self : SpriteRenderable)
    (W H l r b t : ℚ) (hW : W ≠ 0) (hH : H ≠ 0)
    (hinfo : self.mTextureInfo = { mWidth := JSNum.fin W, mHeight := JSNum.fin H }) :
    self.setElementPixelPositions (JSNum.fin l) (JSNum.fin r) (JSNum.fin b) (JSNum.fin t)
      = self.setElementUVCoordinate (JSNum.fin (l / W)) (JSNum.fin (r / W))
          (JSNum.fin (b / H)) (JSNum.fin (t / H)) := by
  unfold SpriteRenderable.setElementPixelPositions SpriteRenderable.setElementUVCoordinate
  simp only [hinfo, JSNum.fin_div_fin _ _ hW, JSNum.fin_div_fin _ _ hH]

/-- Witness of C12 on the 100 by 50 sample image. -/
theorem setElementPixelPositions_eq_setElementUVCoordinate_witness :
    ((100 : ℚ) ≠ 0 ∧ (50 : ℚ) ≠ 0 ∧
      sampleSprite.mTextureInfo = { mWidth := JSNum.fin 100, mHeight := JSNum.fin 50 }) ∧
    sampleSprite.setElementPixelPositions (JSNum.fin 10) (JSNum.fin 60)
        (JSNum.fin 5) (JSNum.fin 45)
      = sampleSprite.setElementUVCoordinate (JSNum.fin (10 / 100)) (JSNum.fin (60 / 100))
          (JSNum.fin (5 / 50)) (JSNum.fin (45 / 50)) :=
  ⟨⟨by norm_num, by norm_num, rfl⟩,
   setElementPixelPositions_eq_setElementUVCoordinate sampleSprite 100 50 10 60 5 45
    (by norm_num) (by norm_num) rfl⟩

/-! ## Rounding to a double -/

namespace JSNum

theorem roundHalfEven_cases (x : ℚ) :
    (roundHalfEven x = ⌊x⌋ ∧ 2 * (x - ⌊x⌋) ≤ 1) ∨
    (roundHalfEven x = ⌊x⌋ + 1 ∧ 1 ≤ 2 * (x - ⌊x⌋)) := by
  unfold roundHalfEven
  by_cases h1 : 2 * (x - ⌊x⌋) < 1
  · left
    rw [if_pos h1]
    exact ⟨rfl, le_of_lt h1⟩
  · rw [if_neg h1]
    by_cases h2 : 1 < 2 * (x - ⌊x⌋)
    · right
      rw [if_pos h2]
      exact ⟨rfl, le_of_lt h2⟩
    · rw [if_neg h2]
      by_cases h4 : ⌊x⌋ % 2 = 0
      · left
        rw [if_pos h4]
        exact ⟨rfl, not_lt.mp h2⟩
      · right
        rw [if_neg h4]
        exact ⟨rfl, not_lt.mp h1⟩

theorem roundHalfEven_err (x : ℚ) : |(roundHalfEven x : ℚ) - x| ≤ 1 / 2 := by
  have hf := Int.floor_le x
  have hl := Int.lt_floor_add_one x
  rcases roundHalfEven_cases x with ⟨h, hb⟩ | ⟨h, hb⟩
  · rw [h, abs_le]
    constructor <;> linarith
  · rw [h, abs_le]
    push_cast
    constructor <;> linarith

theorem roundHalfEven_le_of_le (x : ℚ) (N : ℤ) (h : x ≤ N) : roundHalfEven x ≤ N := by
  have hf := Int.floor_le x
  rcases roundHalfEven_cases x with ⟨h1, _⟩ | ⟨h1, hb⟩
  · rw [h1]
    exact_mod_cast hf.trans h
  · rw [h1]
    have hlt : (⌊x⌋ : ℚ) < N := by linarith
    have : ⌊x⌋ < N := by exact_mod_cast hlt
    omega

theorem le_roundHalfEven_of_le (x : ℚ) (N : ℤ) (h : (N : ℚ) ≤ x) : N ≤ roundHalfEven x := by
  have hN : N ≤ ⌊x⌋ := Int.le_floor.mpr h
  rcases roundHalfEven_cases x with ⟨h1, _⟩ | ⟨h1, _⟩
  · rw [h1]; exact hN
  · rw [h1]; omega

theorem roundHalfEven_eq_of_near (x : ℚ) (m : ℤ) (h : |x - m| < 1 / 2) :
    roundHalfEven x = m := by
  have he := roundHalfEven_err x
  rw [abs_lt] at h
  rw [abs_le] at he
  have h1 : ((roundHalfEven x - m : ℤ) : ℚ) < 1 := by push_cast; linarith
  have h2 : (-1 : ℚ) < ((roundHalfEven x - m : ℤ) : ℚ) := by push_cast; linarith
  have h3 : roundHalfEven x - m < 1 := by exact_mod_cast h1
  have h4 : -1 < roundHalfEven x - m := by exact_mod_cast h2
  omega

theorem roundHalfEven_intCast (n : ℤ) : roundHalfEven (n : ℚ) = n :=
  roundHalfEven_eq_of_near _ n (by simp)

theorem two_zpow_pos (e : ℤ) : (0 : ℚ) < 2 ^ e := zpow_pos (by norm_num) e

theorem round64Val_zero : round64Val 0 = 0 := by
  unfold round64Val
  rw [zero_div]
  have : roundHalfEven 0 = 0 := roundHalfEven_intCast 0
  rw [this]
  simp

theorem zpow_log_le_abs (q : ℚ) (hq : q ≠ 0) : (2 : ℚ) ^ Int.log 2 |q| ≤ |q| := by
  have := Int.zpow_log_le_self (b := 2) (r := |q|) (by norm_num) (abs_pos.mpr hq)
  exact_mod_cast this

theorem zpow_quantumExp_le (q M : ℚ) (hq0 : q ≠ 0) (hq : |q| ≤ M)
    (hM : (2 : ℚ) ^ (-1022 : ℤ) ≤ M) :
    (2 : ℚ) ^ quantumExp q ≤ 2 ^ (-52 : ℤ) * M := by
  unfold quantumExp
  rw [sub_eq_add_neg, zpow_add₀ (by norm_num : (2 : ℚ) ≠ 0)]
  rw [mul_comm]
  apply mul_le_mul_of_nonneg_left _ (two_zpow_pos _).le
  rcases le_total (Int.log 2 |q|) (-1022) with h | h
  · rw [max_eq_right h]
    exact hM
  · rw [max_eq_left h]
    exact (zpow_log_le_abs q hq0).trans hq

theorem round64Val_sub_le (q : ℚ) :
    |round64Val q - q| ≤ 2 ^ quantumExp q / 2 := by
  unfold round64Val
  have hp := two_zpow_pos (quantumExp q)
  have he := roundHalfEven_err (q / 2 ^ quantumExp q)
  have : (roundHalfEven (q / 2 ^ quantumExp q) : ℚ) * 2 ^ quantumExp q - q
      = ((roundHalfEven (q / 2 ^ quantumExp q) : ℚ) - q / 2 ^ quantumExp q)
          * 2 ^ quantumExp q := by
    field_simp
  rw [this, abs_mul, abs_of_pos hp]
  calc |(roundHalfEven (q / 2 ^ quantumExp q) : ℚ) - q / 2 ^ quantumExp q| * 2 ^ quantumExp q
      ≤ 1 / 2 * 2 ^ quantumExp q := mul_le_mul_of_nonneg_right he hp.le
    _ = 2 ^ quantumExp q / 2 := by ring

theorem round64Val_err (q M : ℚ) (hq : |q| ≤ M) (hM : (2 : ℚ) ^ (-1022 : ℤ) ≤ M) :
    |round64Val q - q| ≤ 2 ^ (-53 : ℤ) * M := by
  by_cases hq0 : q = 0
  · rw [hq0, round64Val_zero]
    simp only [sub_zero, abs_zero]
    exact mul_nonneg (two_zpow_pos _).le ((two_zpow_pos _).le.trans hM)
  · have h1 := round64Val_sub_le q
    have h2 := zpow_quantumExp_le q M hq0 hq hM
    have h3 : (2 : ℚ) ^ (-53 : ℤ) * M = 2 ^ (-52 : ℤ) * M / 2 := by
      rw [show (-53 : ℤ) = -52 + -1 from rfl, zpow_add₀ (by norm_num : (2 : ℚ) ≠ 0)]
      norm_num
      ring
    rw [h3]
    exact h1.trans (div_le_div_of_nonneg_right h2 (by norm_num))

theorem quantumExp_eq (q : ℚ) (k : ℤ) (hk : -1074 ≤ k)
    (hlo : (2 : ℚ) ^ (k + 52) ≤ |q|) (hhi : |q| < 2 ^ (k + 53)) : quantumExp q = k := by
  have hpos : 0 < |q| := (two_zpow_pos _).trans_le hlo
  have h1 : k + 52 ≤ Int.log 2 |q| :=
    (Int.zpow_le_iff_le_log (b := 2) (by norm_num) hpos).mp (by exact_mod_cast hlo)
  have h2 : Int.log 2 |q| < k + 53 :=
    (Int.lt_zpow_iff_log_lt (b := 2) (by norm_num) hpos).mp (by exact_mod_cast hhi)
  unfold quantumExp
  omega

theorem round64Val_eq_of_near (q : ℚ) (k m : ℤ) (hk : -1074 ≤ k)
    (hlo : (2 : ℚ) ^ (k + 52) ≤ |q|) (hhi : |q| < 2 ^ (k + 53))
    (hnear : |q - m * 2 ^ k| < 2 ^ k / 2) : round64Val q = m * 2 ^ k := by
  unfold round64Val
  rw [quantumExp_eq q k hk hlo hhi]
  have hp := two_zpow_pos k
  have : roundHalfEven (q / 2 ^ k) = m := by
    apply roundHalfEven_eq_of_near
    have e : q / 2 ^ k - m = (q - m * 2 ^ k) / 2 ^ k := by
      field_simp
      ring
    rw [e, abs_div, abs_of_pos hp, div_lt_iff₀ hp]
    linarith
  rw [this]

theorem quantumExp_nonpos_of_lt (x : ℚ) (hx : |x| < 2 ^ (53 : ℤ)) : quantumExp x ≤ 0 := by
  unfold quantumExp
  by_cases h0 : x = 0
  · rw [h0, abs_zero, Int.log_zero_right]
    decide
  · have hpos : 0 < |x| := abs_pos.mpr h0
    have h2 : Int.log 2 |x| < 53 :=
      (Int.lt_zpow_iff_log_lt (b := 2) (by norm_num) hpos).mp (by exact_mod_cast hx)
    omega

/-- A natural number over a quantum of non-positive exponent is an integer. -/
theorem natCast_div_zpow (n : ℕ) (e : ℤ) (he : e ≤ 0) :
    (n : ℚ) / 2 ^ e = ((n * 2 ^ (-e).toNat : ℤ) : ℚ) := by
  have h : e = -((-e).toNat : ℤ) := by omega
  rw [h]
  simp only [zpow_neg, zpow_natCast, neg_neg, Int.toNat_ofNat]
  push_cast
  field_simp

theorem round64Val_le_natCast (x : ℚ) (n : ℕ) (hn : n < 2 ^ 53) (h : x ≤ n) :
    round64Val x ≤ n := by
  have hp := two_zpow_pos (quantumExp x)
  by_cases hx : x ≤ 0
  · have h1 : roundHalfEven (x / 2 ^ quantumExp x) ≤ 0 := by
      apply roundHalfEven_le_of_le
      simpa using div_nonpos_of_nonpos_of_nonneg hx hp.le
    have h2 : ((roundHalfEven (x / 2 ^ quantumExp x) : ℤ) : ℚ) ≤ 0 := by exact_mod_cast h1
    unfold round64Val
    exact (mul_nonpos_of_nonpos_of_nonneg h2 hp.le).trans (Nat.cast_nonneg n)
  · have hx0 : 0 < x := not_le.mp hx
    have hlt : |x| < 2 ^ (53 : ℤ) := by
      rw [abs_of_pos hx0]
      have : (n : ℚ) < 2 ^ (53 : ℤ) := by exact_mod_cast hn
      linarith
    have he := quantumExp_nonpos_of_lt x hlt
    have h1 : roundHalfEven (x / 2 ^ quantumExp x) ≤ (n * 2 ^ (-quantumExp x).toNat : ℤ) := by
      apply roundHalfEven_le_of_le
      rw [← natCast_div_zpow n _ he]
      exact div_le_div_of_nonneg_right h hp.le
    have h2 : ((roundHalfEven (x / 2 ^ quantumExp x) : ℤ) : ℚ)
        ≤ ((n * 2 ^ (-quantumExp x).toNat : ℤ) : ℚ) := by exact_mod_cast h1
    rw [← natCast_div_zpow n _ he] at h2
    unfold round64Val
    calc (roundHalfEven (x / 2 ^ quantumExp x) : ℚ) * 2 ^ quantumExp x
        ≤ (n : ℚ) / 2 ^ quantumExp x * 2 ^ quantumExp x :=
          mul_le_mul_of_nonneg_right h2 hp.le
      _ = n := by field_simp

theorem natCast_le_round64Val (x : ℚ) (n : ℕ) (hn : n < 2 ^ 53) (h : (n : ℚ) ≤ x) :
    (n : ℚ) ≤ round64Val x := by
  have hp := two_zpow_pos (quantumExp x)
  have hx0 : 0 ≤ x := (Nat.cast_nonneg n).trans h
  by_cases he : quantumExp x ≤ 0
  · have h1 : (n * 2 ^ (-quantumExp x).toNat : ℤ) ≤ roundHalfEven (x / 2 ^ quantumExp x) := by
      apply le_roundHalfEven_of_le
      rw [← natCast_div_zpow n _ he]
      exact div_le_div_of_nonneg_right h hp.le
    have h2 : ((n * 2 ^ (-quantumExp x).toNat : ℤ) : ℚ)
        ≤ ((roundHalfEven (x / 2 ^ quantumExp x) : ℤ) : ℚ) := by exact_mod_cast h1
    rw [← natCast_div_zpow n _ he] at h2
    unfold round64Val
    calc (n : ℚ) = (n : ℚ) / 2 ^ quantumExp x * 2 ^ quantumExp x := by field_simp
      _ ≤ (roundHalfEven (x / 2 ^ quantumExp x) : ℚ) * 2 ^ quantumExp x :=
          mul_le_mul_of_nonneg_right h2 hp.le
  · have he0 : 0 < quantumExp x := not_le.mp he
    have hlog : quantumExp x = Int.log 2 |x| - 52 := by
      unfold quantumExp at he0 ⊢
      omega
    have hxne : x ≠ 0 := by
      intro hz
      rw [hz] at he0
      unfold quantumExp at he0
      rw [abs_zero, Int.log_zero_right] at he0
      omega
    have hlo := zpow_log_le_abs x hxne
    rw [abs_of_nonneg hx0] at hlo hlog
    have hq : (2 : ℚ) ^ (52 : ℤ) ≤ x / 2 ^ quantumExp x := by
      rw [le_div_iff₀ hp, ← zpow_add₀ (by norm_num : (2 : ℚ) ≠ 0), hlog]
      have : (52 : ℤ) + (Int.log 2 x - 52) = Int.log 2 x := by ring
      rw [this]
      exact hlo
    have h1 : (2 ^ 52 : ℤ) ≤ roundHalfEven (x / 2 ^ quantumExp x) := by
      apply le_roundHalfEven_of_le
      have : (((2 ^ 52 : ℤ)) : ℚ) = 2 ^ (52 : ℤ) := by norm_num
      rw [this]
      exact hq
    have h2 : (((2 ^ 52 : ℤ)) : ℚ) ≤ ((roundHalfEven (x / 2 ^ quantumExp x) : ℤ) : ℚ) := by
      exact_mod_cast h1
    have h3 : (2 : ℚ) ≤ 2 ^ quantumExp x := by
      have := zpow_le_zpow_right₀ (by norm_num : (1 : ℚ) ≤ 2) (by omega : (1 : ℤ) ≤ quantumExp x)
      simpa using this
    have h4 : (n : ℚ) < 2 ^ 53 := by exact_mod_cast hn
    unfold round64Val
    calc (n : ℚ) ≤ 2 ^ 52 * 2 := by linarith
      _ ≤ (roundHalfEven (x / 2 ^ quantumExp x) : ℚ) * 2 ^ quantumExp x := by
          apply mul_le_mul _ h3 (by norm_num) ((by norm_num : (0:ℚ) ≤ 2 ^ 52).trans (by exact_mod_cast h2))
          exact_mod_cast h2

theorem round64Val_natCast (n : ℕ) (hn : n < 2 ^ 53) : round64Val n = n :=
  le_antisymm (round64Val_le_natCast n n hn le_rfl) (natCast_le_round64Val n n hn le_rfl)

theorem round64_of_abs_lt (q : ℚ) (h : |round64Val q| < 2 ^ 1024) :
    round64 q = fin (round64Val q) := by
  unfold round64
  rw [if_neg (not_le.mpr h)]

theorem round64_of_abs_le (q : ℚ) (h : |q| ≤ 2 ^ 1000) :
    round64 q = fin (round64Val q) := by
  apply round64_of_abs_lt
  have hM : (2 : ℚ) ^ (-1022 : ℤ) ≤ 2 ^ 1000 := by norm_num
  have he := round64Val_err q (2 ^ 1000) h hM
  have h1 : |round64Val q| ≤ |round64Val q - q| + |q| := by
    have := abs_add (round64Val q - q) q
    simpa using this
  have h2 : (2 : ℚ) ^ (-53 : ℤ) * 2 ^ 1000 + 2 ^ 1000 < 2 ^ 1024 := by norm_num
  linarith

theorem round64_eq_of_near (q : ℚ) (k m : ℤ) (hk : -1074 ≤ k)
    (hlo : (2 : ℚ) ^ (k + 52) ≤ |q|) (hhi : |q| < 2 ^ (k + 53))
    (hnear : |q - m * 2 ^ k| < 2 ^ k / 2) (hfin : |(m : ℚ) * 2 ^ k| < 2 ^ 1024) :
    round64 q = fin (m * 2 ^ k) := by
  have hv := round64Val_eq_of_near q k m hk hlo hhi hnear
  rw [round64_of_abs_lt q (by rw [hv]; exact hfin), hv]

theorem round64_natCast (n : ℕ) (hn : n < 2 ^ 53) : round64 n = fin n := by
  have hv := round64Val_natCast n hn
  rw [round64_of_abs_lt _ _, hv]
  rw [hv, abs_of_nonneg (Nat.cast_nonneg n)]
  have : (n : ℚ) < 2 ^ 53 := by exact_mod_cast hn
  have : (2 : ℚ) ^ 53 < 2 ^ 1024 := by norm_num
  linarith

theorem div64_fin (a b : ℚ) (hb : b ≠ 0) : div64 (fin a) (fin b) = round64 (a / b) := by
  show (if b = 0 then div (fin a) (fin b) else round64 (a / b)) = round64 (a / b)
  rw [if_neg hb]

theorem round64_err (q M : ℚ) (hq : |q| ≤ M) (hM : (1 : ℚ) / 2 ^ 32 ≤ M)
    (hM2 : M ≤ 2 ^ 40) :
    round64 q = fin (round64Val q) ∧ |round64Val q - q| ≤ M / 2 ^ 53 := by
  constructor
  · apply round64_of_abs_le
    have : (2 : ℚ) ^ 40 ≤ 2 ^ 1000 := by norm_num
    linarith
  · have h0 : (2 : ℚ) ^ (-1022 : ℤ) ≤ 1 / 2 ^ 32 := by norm_num
    have h := round64Val_err q M hq (h0.trans hM)
    have e : (2 : ℚ) ^ (-53 : ℤ) * M = M / 2 ^ 53 := by
      rw [zpow_neg, zpow_ofNat]
      field_simp
    rwa [e] at h

theorem round64_zero : round64 0 = fin 0 := by
  have := round64_natCast 0 (by norm_num)
  simpa using this

/-- A quotient by the image dimension, scaled back by it, is within three
roundings' worth of the numerator. -/
theorem scale_round_trip (W l : ℚ) (hW1 : 1 ≤ W) (hW2 : W ≤ 2 ^ 32)
    (hl : l = 0 ∨ 1 ≤ |l|) (hl2 : |l| ≤ 2 ^ 32) :
    ∃ li : ℚ, mul64 (div64 (fin l) (fin W)) (fin W) = fin li ∧ |li - l| ≤ |l| / 2 ^ 51 := by
  have hW0 : 0 < W := by linarith
  rw [div64_fin l W hW0.ne']
  rcases hl with hl | hl
  · refine ⟨0, ?_, ?_⟩
    · rw [hl, zero_div, round64_zero]
      show round64 (0 * W) = fin 0
      rw [zero_mul, round64_zero]
    · rw [hl]
      simp
  · have hM1 : (1 : ℚ) / 2 ^ 32 ≤ |l| / W := by
      rw [div_le_div_iff₀ (by norm_num) hW0]
      nlinarith
    have hM2 : |l| / W ≤ 2 ^ 40 := by
      rw [div_le_iff₀ hW0]
      nlinarith
    have habs : |l / W| ≤ |l| / W := by
      rw [abs_div, abs_of_pos hW0]
    obtain ⟨e1, b1⟩ := round64_err (l / W) (|l| / W) habs hM1 hM2
    rw [e1]
    show ∃ li : ℚ, round64 (round64Val (l / W) * W) = fin li ∧ |li - l| ≤ |l| / 2 ^ 51
    have hx : round64Val (l / W) * W - l = (round64Val (l / W) - l / W) * W := by
      field_simp
    have b2 : |round64Val (l / W) * W - l| ≤ |l| / 2 ^ 53 := by
      rw [hx, abs_mul, abs_of_pos hW0]
      calc |round64Val (l / W) - l / W| * W ≤ |l| / W / 2 ^ 53 * W :=
            mul_le_mul_of_nonneg_right b1 hW0.le
        _ = |l| / 2 ^ 53 := by
            field_simp
            ring
    have b3 : |round64Val (l / W) * W| ≤ 2 * |l| := by
      have := abs_add (round64Val (l / W) * W - l) l
      rw [sub_add_cancel] at this
      have h53 : |l| / 2 ^ 53 ≤ |l| := by
        apply div_le_self (abs_nonneg l)
        norm_num
      linarith
    obtain ⟨e2, b4⟩ := round64_err (round64Val (l / W) * W) (2 * |l|) b3
      (by norm_num; linarith) (by norm_num at hl2 ⊢; linarith)
    refine ⟨_, e2, ?_⟩
    have := abs_add (round64Val (round64Val (l / W) * W) - round64Val (l / W) * W)
      (round64Val (l / W) * W - l)
    rw [sub_add_sub_cancel] at this
    have h5 : 2 * |l| / 2 ^ 53 + |l| / 2 ^ 53 ≤ |l| / 2 ^ 51 := by
      have := abs_nonneg l
      norm_num
      linarith
    linarith

/-- The width formula on doubles: two quotients, their difference, the scaling
and the added one are five roundings, together within 2^-50 of the size of the
arguments. -/
theorem scale_width (W l r : ℚ) (hW1 : 1 ≤ W) (hW2 : W ≤ 2 ^ 32)
    (hl : |l| ≤ 2 ^ 32) (hr : |r| ≤ 2 ^ 32) :
    ∃ wp : ℚ,
      add64 (mul64 (sub64 (div64 (fin r) (fin W)) (div64 (fin l) (fin W))) (fin W)) (fin 1)
        = fin wp ∧
      |wp - (r - l + 1)| ≤ (|l| + |r| + 1) / 2 ^ 50 := by
  have hW0 : 0 < W := by linarith
  have hl0 := abs_nonneg l
  have hr0 := abs_nonneg r
  rw [div64_fin r W hW0.ne', div64_fin l W hW0.ne']
  -- the size of the arguments and its quotient by the dimension
  obtain ⟨T, hT⟩ : ∃ T : ℚ, T = |l| + |r| + 1 := ⟨_, rfl⟩
  obtain ⟨c, hc⟩ : ∃ c : ℚ, c = T / W := ⟨_, rfl⟩
  have hT1 : 1 ≤ T := by linarith
  have hT2 : T ≤ 2 ^ 34 := by norm_num at hl hr ⊢; linarith
  have hcW : c * W = T := by rw [hc]; field_simp
  have hc1 : (1 : ℚ) / 2 ^ 32 ≤ c := by
    rw [hc, div_le_div_iff₀ (by norm_num) hW0]
    nlinarith
  have hc2 : c ≤ 2 ^ 34 := by
    rw [hc, div_le_iff₀ hW0]
    nlinarith
  have hc0 : 0 < c := lt_of_lt_of_le (by norm_num) hc1
  have hrW : |r / W| ≤ c := by
    rw [abs_div, abs_of_pos hW0, hc]
    exact div_le_div_of_nonneg_right (by linarith) hW0.le
  have hlW : |l / W| ≤ c := by
    rw [abs_div, abs_of_pos hW0, hc]
    exact div_le_div_of_nonneg_right (by linarith) hW0.le
  have hdW : |(r - l) / W| ≤ c := by
    rw [abs_div, abs_of_pos hW0, hc]
    apply div_le_div_of_nonneg_right _ hW0.le
    have := abs_sub r l
    linarith
  have hd : |r - l| ≤ T - 1 := by
    have := abs_sub r l
    linarith
  -- the two quotients
  obtain ⟨eR, bR⟩ := round64_err (r / W) c hrW hc1 (by norm_num at hc2 ⊢; linarith)
  obtain ⟨eL, bL⟩ := round64_err (l / W) c hlW hc1 (by norm_num at hc2 ⊢; linarith)
  rw [eR, eL]
  obtain ⟨R, hR⟩ : ∃ R : ℚ, R = round64Val (r / W) := ⟨_, rfl⟩
  obtain ⟨L, hL⟩ : ∃ L : ℚ, L = round64Val (l / W) := ⟨_, rfl⟩
  rw [← hR] at bR ⊢
  rw [← hL] at bL ⊢
  -- their difference
  show ∃ wp : ℚ, add64 (mul64 (round64 (R - L)) (fin W)) (fin 1) = fin wp ∧
    |wp - (r - l + 1)| ≤ (|l| + |r| + 1) / 2 ^ 50
  have b3 : |R - L - (r - l) / W| ≤ 2 * c / 2 ^ 53 := by
    have e : R - L - (r - l) / W = (R - r / W) - (L - l / W) := by
      rw [sub_div]
      ring
    rw [e]
    have := abs_sub (R - r / W) (L - l / W)
    linarith
  have a3 : |R - L| ≤ 2 * c := by
    have := abs_add (R - L - (r - l) / W) ((r - l) / W)
    rw [sub_add_cancel] at this
    have h53 : 2 * c / 2 ^ 53 ≤ c := by
      norm_num
      linarith
    linarith
  obtain ⟨eD, bD⟩ := round64_err (R - L) (2 * c) a3 (by linarith)
    (by norm_num at hc2 ⊢; linarith)
  rw [eD]
  obtain ⟨D, hD⟩ : ∃ D : ℚ, D = round64Val (R - L) := ⟨_, rfl⟩
  rw [← hD] at bD ⊢
  have b4 : |D - (r - l) / W| ≤ 4 * c / 2 ^ 53 := by
    have := abs_add (D - (R - L)) (R - L - (r - l) / W)
    rw [sub_add_sub_cancel] at this
    linarith
  -- the scaling
  show ∃ wp : ℚ, add64 (round64 (D * W)) (fin 1) = fin wp ∧
    |wp - (r - l + 1)| ≤ (|l| + |r| + 1) / 2 ^ 50
  have b5 : |D * W - (r - l)| ≤ 4 * T / 2 ^ 53 := by
    have e : D * W - (r - l) = (D - (r - l) / W) * W := by
      field_simp
    rw [e, abs_mul, abs_of_pos hW0]
    calc |D - (r - l) / W| * W ≤ 4 * c / 2 ^ 53 * W := mul_le_mul_of_nonneg_right b4 hW0.le
      _ = 4 * T / 2 ^ 53 := by
          rw [← hcW]
          ring
  have a5 : |D * W| ≤ 2 * T := by
    have := abs_add (D * W - (r - l)) (r - l)
    rw [sub_add_cancel] at this
    have h53 : 4 * T / 2 ^ 53 ≤ T := by
      norm_num
      linarith
    linarith
  obtain ⟨eP, bP⟩ := round64_err (D * W) (2 * T) a5 (by norm_num; linarith)
    (by norm_num at hT2 ⊢; linarith)
  rw [eP]
  obtain ⟨P, hP⟩ : ∃ P : ℚ, P = round64Val (D * W) := ⟨_, rfl⟩
  rw [← hP] at bP ⊢
  have b6 : |P - (r - l)| ≤ 6 * T / 2 ^ 53 := by
    have := abs_add (P - D * W) (D * W - (r - l))
    rw [sub_add_sub_cancel] at this
    linarith
  -- the added one
  show ∃ wp : ℚ, round64 (P + 1) = fin wp ∧
    |wp - (r - l + 1)| ≤ (|l| + |r| + 1) / 2 ^ 50
  have a7 : |P + 1| ≤ 2 * T := by
    have h1 := abs_add (P - (r - l)) (r - l + 1)
    have e : P - (r - l) + (r - l + 1) = P + 1 := by ring
    rw [e] at h1
    have h2 := abs_add (r - l) 1
    rw [abs_one] at h2
    have h53 : 6 * T / 2 ^ 53 ≤ T := by
      norm_num
      linarith
    linarith
  obtain ⟨eWP, bWP⟩ := round64_err (P + 1) (2 * T) a7 (by norm_num; linarith)
    (by norm_num at hT2 ⊢; linarith)
  refine ⟨_, eWP, ?_⟩
  have h1 := abs_add (round64Val (P + 1) - (P + 1)) (P - (r - l))
  have e : round64Val (P + 1) - (P + 1) + (P - (r - l)) = round64Val (P + 1) - (r - l + 1) := by
    ring
  rw [e] at h1
  rw [← hT]
  have h8 : 2 * T / 2 ^ 53 + 6 * T / 2 ^ 53 ≤ T / 2 ^ 50 := by
    norm_num
    linarith
  linarith

theorem roundHalfEven_eq_of_half (x : ℚ) (m : ℤ) (h : |x - m| = 1 / 2) (heven : m % 2 = 0) :
    roundHalfEven x = m := by
  rcases abs_eq (by norm_num : (0 : ℚ) ≤ 1 / 2) |>.mp h with h1 | h1
  · -- x = m + 1/2
    have hx : x = m + 1 / 2 := by linarith
    have hf : ⌊x⌋ = m := by
      rw [Int.floor_eq_iff]
      constructor <;> linarith
    unfold roundHalfEven
    rw [hf]
    have e : 2 * (x - (m : ℚ)) = 1 := by linarith
    rw [e, if_neg (lt_irrefl _), if_neg (lt_irrefl _), if_pos heven]
  · -- x = m - 1/2
    have hx : x = m - 1 / 2 := by linarith
    have hf : ⌊x⌋ = m - 1 := by
      rw [Int.floor_eq_iff]
      push_cast
      constructor <;> linarith
    unfold roundHalfEven
    rw [hf]
    have e : 2 * (x - ((m - 1 : ℤ) : ℚ)) = 1 := by
      push_cast
      linarith
    have hodd : ¬ (m - 1) % 2 = 0 := by omega
    rw [e, if_neg (lt_irrefl _), if_neg (lt_irrefl _), if_neg hodd]
    ring

theorem round64_eq_of_half (q : ℚ) (k m : ℤ) (hk : -1074 ≤ k)
    (hlo : (2 : ℚ) ^ (k + 52) ≤ |q|) (hhi : |q| < 2 ^ (k + 53))
    (hhalf : |q - m * 2 ^ k| = 2 ^ k / 2) (heven : m % 2 = 0)
    (hfin : |(m : ℚ) * 2 ^ k| < 2 ^ 1024) :
    round64 q = fin (m * 2 ^ k) := by
  have hp := two_zpow_pos k
  have hv : round64Val q = m * 2 ^ k := by
    unfold round64Val
    rw [quantumExp_eq q k hk hlo hhi]
    have : roundHalfEven (q / 2 ^ k) = m := by
      apply roundHalfEven_eq_of_half _ _ _ heven
      have e : q / 2 ^ k - m = (q - m * 2 ^ k) / 2 ^ k := by
        field_simp
        ring
      rw [e, abs_div, abs_of_pos hp, hhalf]
      field_simp
      ring
    rw [this]
  rw [round64_of_abs_lt q (by rw [hv]; exact hfin), hv]

theorem add64_fin (a b : ℚ) : add64 (fin a) (fin b) = round64 (a + b) := rfl

theorem sub64_fin (a b : ℚ) : sub64 (fin a) (fin b) = round64 (a - b) := rfl

theorem mul64_fin (a b : ℚ) : mul64 (fin a) (fin b) = round64 (a * b) := rfl

/-- Rounding keeps a number between two natural numbers below 2^53 there. -/
theorem round64_between (x : ℚ) (m n : ℕ) (hn : n < 2 ^ 53) (hmn : m ≤ n)
    (h1 : (m : ℚ) ≤ x) (h2 : x ≤ n) :
    round64 x = fin (round64Val x) ∧ (m : ℚ) ≤ round64Val x ∧ round64Val x ≤ n := by
  have hm : m < 2 ^ 53 := lt_of_le_of_lt hmn hn
  have b1 := natCast_le_round64Val x m hm h1
  have b2 := round64Val_le_natCast x n hn h2
  refine ⟨?_, b1, b2⟩
  apply round64_of_abs_lt
  rw [abs_of_nonneg ((Nat.cast_nonneg m).trans b1)]
  have : (n : ℚ) < 2 ^ 53 := by exact_mod_cast hn
  have : (2 : ℚ) ^ 53 < 2 ^ 1024 := by norm_num
  linarith

/-- One side of the collision rectangle on doubles, for a region of the unit
interval: the index and the pixel count stay in their ranges, and their sum
is the scaled upper bound plus one up to four roundings. -/
theorem rect_side (W : ℕ) (lo hi : ℚ) (hW : 0 < W) (hW2 : W ≤ 2 ^ 32)
    (h0 : 0 ≤ lo) (h1 : lo ≤ hi) (h2 : hi ≤ 1) :
    ∃ li wp : ℚ,
      mul64 (fin lo) (fin W) = fin li ∧
      add64 (mul64 (sub64 (fin hi) (fin lo)) (fin W)) (fin 1) = fin wp ∧
      0 ≤ li ∧ li ≤ W ∧ 1 ≤ wp ∧ wp ≤ W + 1 ∧
      |li + wp - (hi * W + 1)| ≤ (W + 1) / 2 ^ 51 := by
  have hWq : (1 : ℚ) ≤ W := by exact_mod_cast hW
  have hWq2 : (W : ℚ) ≤ 2 ^ 32 := by exact_mod_cast hW2
  have hn : W + 1 < 2 ^ 53 := by
    have : (2 : ℕ) ^ 32 + 1 < 2 ^ 53 := by norm_num
    omega
  have hsmall : (1 : ℚ) / 2 ^ 32 ≤ 1 := by norm_num
  have hbig : (2 : ℚ) ^ 32 + 1 ≤ 2 ^ 40 := by norm_num
  -- the index
  have x1a : (0 : ℚ) ≤ lo * W := mul_nonneg h0 (by linarith)
  have x1b : lo * W ≤ W := by nlinarith
  obtain ⟨e1, l1, u1⟩ := round64_between (lo * W) 0 W (by omega) (by omega)
    (by simpa using x1a) x1b
  have r1 := (round64_err (lo * W) W (by rw [abs_of_nonneg x1a]; exact x1b)
    (by linarith) (by linarith)).2
  -- the difference of the bounds
  have x2a : (0 : ℚ) ≤ hi - lo := by linarith
  have x2b : hi - lo ≤ 1 := by linarith
  obtain ⟨e2, l2, u2⟩ := round64_between (hi - lo) 0 1 (by norm_num) (by omega)
    (by simpa using x2a) (by simpa using x2b)
  have r2 := (round64_err (hi - lo) 1 (by rw [abs_of_nonneg x2a]; exact x2b)
    hsmall (by norm_num)).2
  obtain ⟨D, hD⟩ : ∃ D : ℚ, D = round64Val (hi - lo) := ⟨_, rfl⟩
  rw [← hD] at e2 l2 u2 r2
  simp only [Nat.cast_zero, Nat.cast_one] at l1 l2 u2
  -- the scaling
  have x3a : (0 : ℚ) ≤ D * W := mul_nonneg l2 (by linarith)
  have x3b : D * W ≤ W := by nlinarith
  obtain ⟨e3, l3, u3⟩ := round64_between (D * W) 0 W (by omega) (by omega)
    (by simpa using x3a) x3b
  have r3 := (round64_err (D * W) W (by rw [abs_of_nonneg x3a]; exact x3b)
    (by linarith) (by linarith)).2
  obtain ⟨P, hP⟩ : ∃ P : ℚ, P = round64Val (D * W) := ⟨_, rfl⟩
  rw [← hP] at e3 l3 u3 r3
  simp only [Nat.cast_zero] at l3
  -- the added one
  have x4a : (1 : ℚ) ≤ P + 1 := by linarith
  have x4b : P + 1 ≤ ((W + 1 : ℕ) : ℚ) := by
    push_cast
    linarith
  obtain ⟨e4, l4, u4⟩ := round64_between (P + 1) 1 (W + 1) hn (by omega)
    (by simpa using x4a) x4b
  have r4 := (round64_err (P + 1) (W + 1)
    (by rw [abs_of_nonneg (by linarith)]; linarith) (by linarith) (by linarith)).2
  simp only [Nat.cast_one, Nat.cast_add] at l4 u4
  refine ⟨round64Val (lo * W), round64Val (P + 1), ?_, ?_, l1, u1, l4, u4, ?_⟩
  · rw [mul64_fin, e1]
  · rw [sub64_fin, e2, mul64_fin, e3, add64_fin, e4]
  · have hs : round64Val (lo * W) + round64Val (P + 1) - (hi * W + 1)
        = (round64Val (lo * W) - lo * W) + (round64Val (P + 1) - (P + 1))
          + (P - D * W) + (D - (hi - lo)) * W := by ring
    have t4 : |(D - (hi - lo)) * W| ≤ W / 2 ^ 53 := by
      rw [abs_mul, abs_of_nonneg (by linarith : (0 : ℚ) ≤ W)]
      calc |D - (hi - lo)| * W ≤ 1 / 2 ^ 53 * W :=
            mul_le_mul_of_nonneg_right r2 (by linarith)
        _ = W / 2 ^ 53 := by ring
    have a1 := abs_add (round64Val (lo * W) - lo * W + (round64Val (P + 1) - (P + 1))
      + (P - D * W)) ((D - (hi - lo)) * W)
    have a2 := abs_add (round64Val (lo * W) - lo * W + (round64Val (P + 1) - (P + 1)))
      (P - D * W)
    have a3 := abs_add (round64Val (lo * W) - lo * W) (round64Val (P + 1) - (P + 1))
    rw [hs]
    have h51 : (W : ℚ) / 2 ^ 53 + ((W : ℚ) + 1) / 2 ^ 53 + (W : ℚ) / 2 ^ 53 + (W : ℚ) / 2 ^ 53
        ≤ ((W : ℚ) + 1) / 2 ^ 51 := by
      norm_num
      linarith
    linarith

/-- The default region on doubles: nothing is rounded. -/
theorem rect_side_default (W : ℕ) (hW2 : W ≤ 2 ^ 32) :
    mul64 (fin 0) (fin W) = fin 0 ∧
    add64 (mul64 (sub64 (fin 1) (fin 0)) (fin W)) (fin 1) = fin (W + 1) := by
  have hn : W + 1 < 2 ^ 53 := by
    have : (2 : ℕ) ^ 32 + 1 < 2 ^ 53 := by norm_num
    omega
  constructor
  · rw [mul64_fin, zero_mul, round64_zero]
  · have h1 : round64 1 = fin 1 := by
      have := round64_natCast 1 (by norm_num)
      simpa using this
    have hW := round64_natCast W (by omega)
    have hW1 := round64_natCast (W + 1) hn
    push_cast at hW1
    rw [sub64_fin, sub_zero, h1, mul64_fin, one_mul, hW, add64_fin, hW1]

end JSNum

/-! ## The methods on doubles, field by field -/

namespace Binary64

theorem pixel_mElmLeft (self : SpriteRenderable) (l r b t : JSNum) :
    (setElementPixelPositions self l r b t).mElmLeft
      = JSNum.div64 l self.mTextureInfo.mWidth := rfl

theorem pixel_mElmLeftIndex (self : SpriteRenderable) (l r b t : JSNum) :
    (setElementPixelPositions self l r b t).mElmLeftIndex
      = JSNum.mul64 (JSNum.div64 l self.mTextureInfo.mWidth) self.mTextureInfo.mWidth := rfl

theorem pixel_mElmBottomIndex (self : SpriteRenderable) (l r b t : JSNum) :
    (setElementPixelPositions self l r b t).mElmBottomIndex
      = JSNum.mul64 (JSNum.div64 b self.mTextureInfo.mHeight) self.mTextureInfo.mHeight := rfl

theorem pixel_mElmWidthPixels (self : SpriteRenderable) (l r b t : JSNum) :
    (setElementPixelPositions self l r b t).mElmWidthPixels
      = JSNum.add64 (JSNum.mul64 (JSNum.sub64 (JSNum.div64 r self.mTextureInfo.mWidth)
          (JSNum.div64 l self.mTextureInfo.mWidth)) self.mTextureInfo.mWidth) (JSNum.fin 1) := rfl

theorem pixel_mElmHeightPixels (self : SpriteRenderable) (l r b t : JSNum) :
    (setElementPixelPositions self l r b t).mElmHeightPixels
      = JSNum.add64 (JSNum.mul64 (JSNum.sub64 (JSNum.div64 t self.mTextureInfo.mHeight)
          (JSNum.div64 b self.mTextureInfo.mHeight)) self.mTextureInfo.mHeight) (JSNum.fin 1) := rfl

theorem uv_mElmLeftIndex (self : SpriteRenderable) (l r b t : JSNum) :
    (setElementUVCoordinate self l r b t).mElmLeftIndex
      = JSNum.mul64 l self.mTextureInfo.mWidth := rfl

theorem uv_mElmBottomIndex (self : SpriteRenderable) (l r b t : JSNum) :
    (setElementUVCoordinate self l r b t).mElmBottomIndex
      = JSNum.mul64 b self.mTextureInfo.mHeight := rfl

theorem uv_mElmWidthPixels (self : SpriteRenderable) (l r b t : JSNum) :
    (setElementUVCoordinate self l r b t).mElmWidthPixels
      = JSNum.add64 (JSNum.mul64 (JSNum.sub64 r l) self.mTextureInfo.mWidth) (JSNum.fin 1) := rfl

theorem uv_mElmHeightPixels (self : SpriteRenderable) (l r b t : JSNum) :
    (setElementUVCoordinate self l r b t).mElmHeightPixels
      = JSNum.add64 (JSNum.mul64 (JSNum.sub64 t b) self.mTextureInfo.mHeight) (JSNum.fin 1) := rfl

theorem new_mElmLeftIndex (res : Resources) (myTexture : String) :
    (new res myTexture).mElmLeftIndex
      = JSNum.mul64 (JSNum.fin 0) (res.textureInfo myTexture).mWidth := rfl

theorem new_mElmBottomIndex (res : Resources) (myTexture : String) :
    (new res myTexture).mElmBottomIndex
      = JSNum.mul64 (JSNum.fin 0) (res.textureInfo myTexture).mHeight := rfl

theorem new_mElmWidthPixels (res : Resources) (myTexture : String) :
    (new res myTexture).mElmWidthPixels
      = JSNum.add64 (JSNum.mul64 (JSNum.sub64 (JSNum.fin 1) (JSNum.fin 0))
          (res.textureInfo myTexture).mWidth) (JSNum.fin 1) := rfl

theorem new_mElmHeightPixels (res : Resources) (myTexture : String) :
    (new res myTexture).mElmHeightPixels
      = JSNum.add64 (JSNum.mul64 (JSNum.sub64 (JSNum.fin 1) (JSNum.fin 0))
          (res.textureInfo myTexture).mHeight) (JSNum.fin 1) := rfl

end Binary64

theorem squareSprite_mTextureInfo (n : ℕ) :
    (squareSprite n).mTextureInfo = { mWidth := JSNum.fin n, mHeight := JSNum.fin n } := rfl

theorem int_zero_or_one_le_abs (l : ℤ) : (l : ℚ) = 0 ∨ 1 ≤ |(l : ℚ)| := by
  by_cases h : l = 0
  · left
    exact_mod_cast h
  · right
    have := Int.one_le_abs h
    exact_mod_cast this

/-! ## The pixel round trip and the collision rectangle, on doubles -/

/-- C13, as stated, fails of the code, which computes on doubles.  On a 49 by
49 image `setElementPixelPositions(1, 49, 0, 49)` stores left = 1/49 rounded and
leaves mElmLeftIndex = 1 - 2^-53 (0.9999999999999999), not 1; on a 10 by 10
image `setElementPixelPositions(8, 10, 0, 10)` leaves
mElmWidthPixels = 3 - 2^-51 (2.9999999999999996), not 10 - 8 + 1. -/
theorem setElementPixelPositions_round_trip_inexact :
    (squareSprite 49).mTextureInfo = { mWidth := JSNum.fin 49, mHeight := JSNum.fin 49 } ∧
    (Binary64.setElementPixelPositions (squareSprite 49) (JSNum.fin 1) (JSNum.fin 49)
        (JSNum.fin 0) (JSNum.fin 49)).mElmLeft = JSNum.fin (5882252574524729 / 2 ^ 58) ∧
    (Binary64.setElementPixelPositions (squareSprite 49) (JSNum.fin 1) (JSNum.fin 49)
        (JSNum.fin 0) (JSNum.fin 49)).mElmLeftIndex = JSNum.fin (1 - 1 / 2 ^ 53) ∧
    (squareSprite 10).mTextureInfo = { mWidth := JSNum.fin 10, mHeight := JSNum.fin 10 } ∧
    (Binary64.setElementPixelPositions (squareSprite 10) (JSNum.fin 8) (JSNum.fin 10)
        (JSNum.fin 0) (JSNum.fin 10)).mElmWidthPixels = JSNum.fin (3 - 1 / 2 ^ 51) ∧
    JSNum.fin (1 - 1 / 2 ^ 53) ≠ JSNum.fin 1 ∧
    JSNum.fin (3 - 1 / 2 ^ 51) ≠ JSNum.fin (10 - 8 + 1) := by
  have i49 : (squareSprite 49).mTextureInfo
      = { mWidth := JSNum.fin 49, mHeight := JSNum.fin 49 } := by
    rw [squareSprite_mTextureInfo]
    norm_num
  have i10 : (squareSprite 10).mTextureInfo
      = { mWidth := JSNum.fin 10, mHeight := JSNum.fin 10 } := by
    rw [squareSprite_mTextureInfo]
    norm_num
  -- 49 by 49: the quotient 1/49 and its product with 49
  have hA : JSNum.round64 (1 / 49) = JSNum.fin (5882252574524729 / 2 ^ 58) := by
    rw [JSNum.round64_eq_of_near (1 / 49) (-58) 5882252574524729 (by norm_num)
      (by norm_num [abs_of_pos]) (by norm_num [abs_of_pos]) (by norm_num [abs_lt])
      (by norm_num [abs_lt])]
    norm_num
  have hB : JSNum.round64 (5882252574524729 / 2 ^ 58 * 49) = JSNum.fin (1 - 1 / 2 ^ 53) := by
    rw [JSNum.round64_eq_of_near (5882252574524729 / 2 ^ 58 * 49) (-53) 9007199254740991
      (by norm_num) (by norm_num [abs_of_pos]) (by norm_num [abs_of_pos])
      (by norm_num [abs_lt]) (by norm_num [abs_lt])]
    norm_num
  -- 10 by 10: the quotients 10/10 and 8/10, their difference, the product, the sum
  have hR : JSNum.round64 (10 / 10) = JSNum.fin 1 := by
    have := JSNum.round64_natCast 1 (by norm_num)
    norm_num at this ⊢
    exact this
  have hL : JSNum.round64 (8 / 10) = JSNum.fin (7205759403792794 / 2 ^ 53) := by
    rw [JSNum.round64_eq_of_near (8 / 10) (-53) 7205759403792794 (by norm_num)
      (by norm_num [abs_of_pos]) (by norm_num [abs_of_pos]) (by norm_num [abs_lt])
      (by norm_num [abs_lt])]
    norm_num
  have hD : JSNum.round64 (1 - 7205759403792794 / 2 ^ 53)
      = JSNum.fin (7205759403792792 / 2 ^ 55) := by
    rw [JSNum.round64_eq_of_near (1 - 7205759403792794 / 2 ^ 53) (-55) 7205759403792792
      (by norm_num) (by norm_num [abs_of_pos]) (by norm_num [abs_of_pos])
      (by norm_num [abs_lt]) (by norm_num [abs_lt])]
    norm_num
  have hP : JSNum.round64 (7205759403792792 / 2 ^ 55 * 10)
      = JSNum.fin (9007199254740990 / 2 ^ 52) := by
    rw [JSNum.round64_eq_of_near (7205759403792792 / 2 ^ 55 * 10) (-52) 9007199254740990
      (by norm_num) (by norm_num [abs_of_pos]) (by norm_num [abs_of_pos])
      (by norm_num [abs_lt]) (by norm_num [abs_lt])]
    norm_num
  have hS : JSNum.round64 (9007199254740990 / 2 ^ 52 + 1) = JSNum.fin (3 - 1 / 2 ^ 51) := by
    rw [JSNum.round64_eq_of_near (9007199254740990 / 2 ^ 52 + 1) (-51) 6755399441055743
      (by norm_num) (by norm_num [abs_of_pos]) (by norm_num [abs_of_pos])
      (by norm_num [abs_lt]) (by norm_num [abs_lt])]
    norm_num
  refine ⟨i49, ?_, ?_, i10, ?_, ?_, ?_⟩
  · rw [Binary64.pixel_mElmLeft, i49, JSNum.div64_fin _ _ (by norm_num), hA]
  · rw [Binary64.pixel_mElmLeftIndex, i49, JSNum.div64_fin _ _ (by norm_num), hA,
      JSNum.mul64_fin, hB]
  · rw [Binary64.pixel_mElmWidthPixels, i10, JSNum.div64_fin _ _ (by norm_num),
      JSNum.div64_fin _ _ (by norm_num), hR, hL, JSNum.sub64_fin, hD, JSNum.mul64_fin, hP,
      JSNum.add64_fin, hS]
  · intro h
    have := JSNum.fin.inj h
    norm_num at this
  · intro h
    have := JSNum.fin.inj h
    norm_num at this

/-- C13, amended: on doubles the derived fields give the pixel arguments back
up to rounding.  For image dimensions W, H and pixel positions l, r, b, t that
are integers of size at most 2^32 (W, H positive), after
`setElementPixelPositions(l, r, b, t)` the four derived fields are finite,
mElmLeftIndex is within 2^-51·|l| of l, mElmBottomIndex within 2^-51·|b| of b,
mElmWidthPixels within 2^-50·(|l| + |r| + 1) of r - l + 1 and mElmHeightPixels
within 2^-50·(|b| + |t| + 1) of t - b + 1. -/
theorem setElementPixelPositions_round_trip_rounded (self : SpriteRenderable)
    (W H : ℕ) (l r b t : ℤ)
    (hW : 0 < W) (hW2 : W ≤ 2 ^ 32) (hH : 0 < H) (hH2 : H ≤ 2 ^ 32)
    (hl : |l| ≤ 2 ^ 32) (hr : |r| ≤ 2 ^ 32) (hb : |b| ≤ 2 ^ 32) (ht : |t| ≤ 2 ^ 32)
    (hinfo : self.mTextureInfo = { mWidth := JSNum.fin W, mHeight := JSNum.fin H }) :
    ∃ li bi wp hp : ℚ,
      (Binary64.setElementPixelPositions self (JSNum.fin l) (JSNum.fin r)
          (JSNum.fin b) (JSNum.fin t)).mElmLeftIndex = JSNum.fin li ∧
      (Binary64.setElementPixelPositions self (JSNum.fin l) (JSNum.fin r)
          (JSNum.fin b) (JSNum.fin t)).mElmBottomIndex = JSNum.fin bi ∧
      (Binary64.setElementPixelPositions self (JSNum.fin l) (JSNum.fin r)
          (JSNum.fin b) (JSNum.fin t)).mElmWidthPixels = JSNum.fin wp ∧
      (Binary64.setElementPixelPositions self (JSNum.fin l) (JSNum.fin r)
          (JSNum.fin b) (JSNum.fin t)).mElmHeightPixels = JSNum.fin hp ∧
      |li - l| ≤ |(l : ℚ)| / 2 ^ 51 ∧
      |bi - b| ≤ |(b : ℚ)| / 2 ^ 51 ∧
      |wp - (r - l + 1)| ≤ (|(l : ℚ)| + |(r : ℚ)| + 1) / 2 ^ 50 ∧
      |hp - (t - b + 1)| ≤ (|(b : ℚ)| + |(t : ℚ)| + 1) / 2 ^ 50 := by
  have hW1 : (1 : ℚ) ≤ W := by exact_mod_cast hW
  have hWq : (W : ℚ) ≤ 2 ^ 32 := by exact_mod_cast hW2
  have hH1 : (1 : ℚ) ≤ H := by exact_mod_cast hH
  have hHq : (H : ℚ) ≤ 2 ^ 32 := by exact_mod_cast hH2
  have hlq : |(l : ℚ)| ≤ 2 ^ 32 := by exact_mod_cast hl
  have hrq : |(r : ℚ)| ≤ 2 ^ 32 := by exact_mod_cast hr
  have hbq : |(b : ℚ)| ≤ 2 ^ 32 := by exact_mod_cast hb
  have htq : |(t : ℚ)| ≤ 2 ^ 32 := by exact_mod_cast ht
  obtain ⟨li, e1, b1⟩ := JSNum.scale_round_trip W l hW1 hWq (int_zero_or_one_le_abs l) hlq
  obtain ⟨bi, e2, b2⟩ := JSNum.scale_round_trip H b hH1 hHq (int_zero_or_one_le_abs b) hbq
  obtain ⟨wp, e3, b3⟩ := JSNum.scale_width W l r hW1 hWq hlq hrq
  obtain ⟨hp, e4, b4⟩ := JSNum.scale_width H b t hH1 hHq hbq htq
  refine ⟨li, bi, wp, hp, ?_, ?_, ?_, ?_, b1, b2, b3, b4⟩
  · rw [Binary64.pixel_mElmLeftIndex, hinfo]
    exact e1
  · rw [Binary64.pixel_mElmBottomIndex, hinfo]
    exact e2
  · rw [Binary64.pixel_mElmWidthPixels, hinfo]
    exact e3
  · rw [Binary64.pixel_mElmHeightPixels, hinfo]
    exact e4

/-- Witness of the amended C13: `setElementPixelPositions(1, 49, 0, 49)` on the
49 by 49 image. -/
theorem setElementPixelPositions_round_trip_rounded_witness :
    ((0 : ℕ) < 49 ∧ (49 : ℕ) ≤ 2 ^ 32 ∧ |(1 : ℤ)| ≤ 2 ^ 32 ∧ |(49 : ℤ)| ≤ 2 ^ 32 ∧
      |(0 : ℤ)| ≤ 2 ^ 32 ∧
      (squareSprite 49).mTextureInfo
        = { mWidth := JSNum.fin ((49 : ℕ) : ℚ), mHeight := JSNum.fin ((49 : ℕ) : ℚ) }) ∧
    ∃ li bi wp hp : ℚ,
      (Binary64.setElementPixelPositions (squareSprite 49) (JSNum.fin ((1 : ℤ) : ℚ))
          (JSNum.fin ((49 : ℤ) : ℚ)) (JSNum.fin ((0 : ℤ) : ℚ))
          (JSNum.fin ((49 : ℤ) : ℚ))).mElmLeftIndex = JSNum.fin li ∧
      (Binary64.setElementPixelPositions (squareSprite 49) (JSNum.fin ((1 : ℤ) : ℚ))
          (JSNum.fin ((49 : ℤ) : ℚ)) (JSNum.fin ((0 : ℤ) : ℚ))
          (JSNum.fin ((49 : ℤ) : ℚ))).mElmBottomIndex = JSNum.fin bi ∧
      (Binary64.setElementPixelPositions (squareSprite 49) (JSNum.fin ((1 : ℤ) : ℚ))
          (JSNum.fin ((49 : ℤ) : ℚ)) (JSNum.fin ((0 : ℤ) : ℚ))
          (JSNum.fin ((49 : ℤ) : ℚ))).mElmWidthPixels = JSNum.fin wp ∧
      (Binary64.setElementPixelPositions (squareSprite 49) (JSNum.fin ((1 : ℤ) : ℚ))
          (JSNum.fin ((49 : ℤ) : ℚ)) (JSNum.fin ((0 : ℤ) : ℚ))
          (JSNum.fin ((49 : ℤ) : ℚ))).mElmHeightPixels = JSNum.fin hp ∧
      |li - ((1 : ℤ) : ℚ)| ≤ |((1 : ℤ) : ℚ)| / 2 ^ 51 ∧
      |bi - ((0 : ℤ) : ℚ)| ≤ |((0 : ℤ) : ℚ)| / 2 ^ 51 ∧
      |wp - (((49 : ℤ) : ℚ) - ((1 : ℤ) : ℚ) + 1)|
        ≤ (|((1 : ℤ) : ℚ)| + |((49 : ℤ) : ℚ)| + 1) / 2 ^ 50 ∧
      |hp - (((49 : ℤ) : ℚ) - ((0 : ℤ) : ℚ) + 1)|
        ≤ (|((0 : ℤ) : ℚ)| + |((49 : ℤ) : ℚ)| + 1) / 2 ^ 50 :=
  ⟨⟨by norm_num, by norm_num, by norm_num, by norm_num, by norm_num,
      squareSprite_mTextureInfo 49⟩,
   setElementPixelPositions_round_trip_rounded (squareSprite 49) 49 49 1 49 0 49
    (by norm_num) (by norm_num) (by norm_num) (by norm_num)
    (by norm_num) (by norm_num) (by norm_num) (by norm_num)
    (squareSprite_mTextureInfo 49)⟩

/-- C14, as stated, fails of the code, which computes on doubles.  On a 27 by
27 image, with left the double 0.3333333333333333 that `9/27` evaluates to,
`setElementUVCoordinate(left, 1, 0, 1)` leaves mElmLeftIndex = 9 and
mElmWidthPixels = 19 + 2^-48 (19.000000000000004): their sum, also when it is
added on doubles, is 28 + 2^-48, which exceeds W + 1 = 28 and differs from
mElmRight·W + 1 = 28. -/
theorem collision_rectangle_sum_exceeds :
    (squareSprite 27).mTextureInfo = { mWidth := JSNum.fin 27, mHeight := JSNum.fin 27 } ∧
    ((0 : ℚ) ≤ 6004799503160661 / 2 ^ 54 ∧ (6004799503160661 / 2 ^ 54 : ℚ) ≤ 1) ∧
    (Binary64.setElementUVCoordinate (squareSprite 27) (JSNum.fin (6004799503160661 / 2 ^ 54))
        (JSNum.fin 1) (JSNum.fin 0) (JSNum.fin 1)).mElmRight = JSNum.fin 1 ∧
    (Binary64.setElementUVCoordinate (squareSprite 27) (JSNum.fin (6004799503160661 / 2 ^ 54))
        (JSNum.fin 1) (JSNum.fin 0) (JSNum.fin 1)).mElmLeftIndex = JSNum.fin 9 ∧
    (Binary64.setElementUVCoordinate (squareSprite 27) (JSNum.fin (6004799503160661 / 2 ^ 54))
        (JSNum.fin 1) (JSNum.fin 0) (JSNum.fin 1)).mElmWidthPixels = JSNum.fin (19 + 1 / 2 ^ 48) ∧
    JSNum.add64 (JSNum.fin 9) (JSNum.fin (19 + 1 / 2 ^ 48)) = JSNum.fin (28 + 1 / 2 ^ 48) ∧
    (27 + 1 : ℚ) < 9 + (19 + 1 / 2 ^ 48) ∧
    (9 + (19 + 1 / 2 ^ 48) : ℚ) ≠ 1 * 27 + 1 := by
  have i27 : (squareSprite 27).mTextureInfo
      = { mWidth := JSNum.fin 27, mHeight := JSNum.fin 27 } := by
    rw [squareSprite_mTextureInfo]
    norm_num
  have hLI : JSNum.round64 (6004799503160661 / 2 ^ 54 * 27) = JSNum.fin 9 := by
    rw [JSNum.round64_eq_of_near (6004799503160661 / 2 ^ 54 * 27) (-49) 5066549580791808
      (by norm_num) (by norm_num [abs_of_pos]) (by norm_num [abs_of_pos])
      (by norm_num [abs_lt]) (by norm_num [abs_lt])]
    norm_num
  have hD : JSNum.round64 (1 - 6004799503160661 / 2 ^ 54)
      = JSNum.fin (6004799503160662 / 2 ^ 53) := by
    rw [JSNum.round64_eq_of_half (1 - 6004799503160661 / 2 ^ 54) (-53) 6004799503160662
      (by norm_num) (by norm_num [abs_of_pos]) (by norm_num [abs_of_pos])
      (by norm_num [abs_of_neg]) (by decide) (by norm_num [abs_lt])]
    norm_num
  have hP : JSNum.round64 (6004799503160662 / 2 ^ 53 * 27)
      = JSNum.fin (5066549580791809 / 2 ^ 48) := by
    rw [JSNum.round64_eq_of_near (6004799503160662 / 2 ^ 53 * 27) (-48) 5066549580791809
      (by norm_num) (by norm_num [abs_of_pos]) (by norm_num [abs_of_pos])
      (by norm_num [abs_lt]) (by norm_num [abs_lt])]
    norm_num
  have hS : JSNum.round64 (5066549580791809 / 2 ^ 48 + 1) = JSNum.fin (19 + 1 / 2 ^ 48) := by
    rw [JSNum.round64_eq_of_near (5066549580791809 / 2 ^ 48 + 1) (-48) 5348024557502465
      (by norm_num) (by norm_num [abs_of_pos]) (by norm_num [abs_of_pos])
      (by norm_num [abs_lt]) (by norm_num [abs_lt])]
    norm_num
  have hT : JSNum.round64 (9 + (19 + 1 / 2 ^ 48)) = JSNum.fin (28 + 1 / 2 ^ 48) := by
    rw [JSNum.round64_eq_of_near (9 + (19 + 1 / 2 ^ 48)) (-48) 7881299347898369
      (by norm_num) (by norm_num [abs_of_pos]) (by norm_num [abs_of_pos])
      (by norm_num [abs_lt]) (by norm_num [abs_lt])]
    norm_num
  refine ⟨i27, ⟨by norm_num, by norm_num⟩, rfl, ?_, ?_, ?_, by norm_num, by norm_num⟩
  · rw [Binary64.uv_mElmLeftIndex, i27, JSNum.mul64_fin, hLI]
  · rw [Binary64.uv_mElmWidthPixels, i27, JSNum.sub64_fin, hD, JSNum.mul64_fin, hP,
      JSNum.add64_fin, hS]
  · rw [JSNum.add64_fin, hT]

/-- C14, amended: on doubles the collision rectangle keeps its ranges and the
sum holds up to rounding.  For image dimensions W, H that are positive
integers of size at most 2^32 and a region with 0 ≤ left ≤ right ≤ 1 and
0 ≤ bottom ≤ top ≤ 1 set through `setElementUVCoordinate`, the derived fields
are finite with 0 ≤ mElmLeftIndex ≤ W, 1 ≤ mElmWidthPixels ≤ W + 1 and
mElmLeftIndex + mElmWidthPixels within 2^-51·(W + 1) of right·W + 1, and
likewise 0 ≤ mElmBottomIndex ≤ H, 1 ≤ mElmHeightPixels ≤ H + 1 and
mElmBottomIndex + mElmHeightPixels within 2^-51·(H + 1) of top·H + 1.  For
the default region of a fresh sprite nothing is rounded: the indices are 0,
the width is W + 1 and the height is H + 1, so the upper bounds are attained. -/
theorem collision_rectangle_rounded (self : SpriteRenderable) (res : Resources)
    (myTexture : String) (W H : ℕ) (left right bottom top : ℚ)
    (hW : 0 < W) (hW2 : W ≤ 2 ^ 32) (hH : 0 < H) (hH2 : H ≤ 2 ^ 32)
    (h0l : 0 ≤ left) (hlr : left ≤ right) (hr1 : right ≤ 1)
    (h0b : 0 ≤ bottom) (hbt : bottom ≤ top) (ht1 : top ≤ 1)
    (hinfo : self.mTextureInfo = { mWidth := JSNum.fin W, mHeight := JSNum.fin H })
    (hres : res.textureInfo myTexture = { mWidth := JSNum.fin W, mHeight := JSNum.fin H }) :
    (∃ li wp bi hp : ℚ,
      (Binary64.setElementUVCoordinate self (JSNum.fin left) (JSNum.fin right)
          (JSNum.fin bottom) (JSNum.fin top)).mElmLeftIndex = JSNum.fin li ∧
      (Binary64.setElementUVCoordinate self (JSNum.fin left) (JSNum.fin right)
          (JSNum.fin bottom) (JSNum.fin top)).mElmWidthPixels = JSNum.fin wp ∧
      (Binary64.setElementUVCoordinate self (JSNum.fin left) (JSNum.fin right)
          (JSNum.fin bottom) (JSNum.fin top)).mElmBottomIndex = JSNum.fin bi ∧
      (Binary64.setElementUVCoordinate self (JSNum.fin left) (JSNum.fin right)
          (JSNum.fin bottom) (JSNum.fin top)).mElmHeightPixels = JSNum.fin hp ∧
      (0 ≤ li ∧ li ≤ W ∧ 1 ≤ wp ∧ wp ≤ W + 1 ∧
        |li + wp - (right * W + 1)| ≤ (W + 1) / 2 ^ 51) ∧
      (0 ≤ bi ∧ bi ≤ H ∧ 1 ≤ hp ∧ hp ≤ H + 1 ∧
        |bi + hp - (top * H + 1)| ≤ (H + 1) / 2 ^ 51)) ∧
    (Binary64.new res myTexture).mElmLeftIndex = JSNum.fin 0 ∧
    (Binary64.new res myTexture).mElmWidthPixels = JSNum.fin (W + 1) ∧
    (Binary64.new res myTexture).mElmBottomIndex = JSNum.fin 0 ∧
    (Binary64.new res myTexture).mElmHeightPixels = JSNum.fin (H + 1) := by
  obtain ⟨li, wp, e1, e2, c1, c2, c3, c4, c5⟩ :=
    JSNum.rect_side W left right hW hW2 h0l hlr hr1
  obtain ⟨bi, hp, e3, e4, d1, d2, d3, d4, d5⟩ :=
    JSNum.rect_side H bottom top hH hH2 h0b hbt ht1
  obtain ⟨n1, n2⟩ := JSNum.rect_side_default W hW2
  obtain ⟨n3, n4⟩ := JSNum.rect_side_default H hH2
  refine ⟨⟨li, wp, bi, hp, ?_, ?_, ?_, ?_, ⟨c1, c2, c3, c4, c5⟩, ⟨d1, d2, d3, d4, d5⟩⟩,
    ?_, ?_, ?_, ?_⟩
  · rw [Binary64.uv_mElmLeftIndex, hinfo]
    exact e1
  · rw [Binary64.uv_mElmWidthPixels, hinfo]
    exact e2
  · rw [Binary64.uv_mElmBottomIndex, hinfo]
    exact e3
  · rw [Binary64.uv_mElmHeightPixels, hinfo]
    exact e4
  · rw [Binary64.new_mElmLeftIndex, hres]
    exact n1
  · rw [Binary64.new_mElmWidthPixels, hres]
    exact n2
  · rw [Binary64.new_mElmBottomIndex, hres]
    exact n3
  · rw [Binary64.new_mElmHeightPixels, hres]
    exact n4

/-- Witness of the amended C14: the region (1/4, 3/4, 1/8, 1/2) and the default
region on the 27 by 27 image. -/
theorem collision_rectangle_rounded_witness :
    ((0 : ℕ) < 27 ∧ (27 : ℕ) ≤ 2 ^ 32 ∧
      (0 : ℚ) ≤ 1 / 4 ∧ (1 / 4 : ℚ) ≤ 3 / 4 ∧ (3 / 4 : ℚ) ≤ 1 ∧
      (0 : ℚ) ≤ 1 / 8 ∧ (1 / 8 : ℚ) ≤ 1 / 2 ∧ (1 / 2 : ℚ) ≤ 1 ∧
      (squareSprite 27).mTextureInfo
        = { mWidth := JSNum.fin ((27 : ℕ) : ℚ), mHeight := JSNum.fin ((27 : ℕ) : ℚ) }) ∧
    (Binary64.new (sampleResources (JSNum.fin ((27 : ℕ) : ℚ)) (JSNum.fin ((27 : ℕ) : ℚ)))
        "assets/square.png").mElmWidthPixels = JSNum.fin (((27 : ℕ) : ℚ) + 1) ∧
    ∃ li wp : ℚ,
      (Binary64.setElementUVCoordinate (squareSprite 27) (JSNum.fin (1 / 4))
          (JSNum.fin (3 / 4)) (JSNum.fin (1 / 8)) (JSNum.fin (1 / 2))).mElmLeftIndex
        = JSNum.fin li ∧
      (Binary64.setElementUVCoordinate (squareSprite 27) (JSNum.fin (1 / 4))
          (JSNum.fin (3 / 4)) (JSNum.fin (1 / 8)) (JSNum.fin (1 / 2))).mElmWidthPixels
        = JSNum.fin wp ∧
      0 ≤ li ∧ li ≤ ((27 : ℕ) : ℚ) ∧ 1 ≤ wp ∧ wp ≤ ((27 : ℕ) : ℚ) + 1 ∧
      |li + wp - (3 / 4 * ((27 : ℕ) : ℚ) + 1)| ≤ (((27 : ℕ) : ℚ) + 1) / 2 ^ 51 := by
  have h := collision_rectangle_rounded (squareSprite 27)
    (sampleResources (JSNum.fin ((27 : ℕ) : ℚ)) (JSNum.fin ((27 : ℕ) : ℚ)))
    "assets/square.png" 27 27 (1 / 4) (3 / 4) (1 / 8) (1 / 2)
    (by norm_num) (by norm_num) (by norm_num) (by norm_num)
    (by norm_num) (by norm_num) (by norm_num) (by norm_num) (by norm_num) (by norm_num)
    (squareSprite_mTextureInfo 27) rfl
  obtain ⟨⟨li, wp, bi, hp, e1, e2, _, _, c, _⟩, _, n2, _, _⟩ := h
  exact ⟨⟨by norm_num, by norm_num, by norm_num, by norm_num, by norm_num, by norm_num,
    by norm_num, by norm_num, squareSprite_mTextureInfo 27⟩, n2, li, wp, e1, e2, c⟩

end Engine
